import Mathlib

/-!
Verification of the MailMind email archive application's search, retrieval,
parsing and route layers, as a shallow embedding in Lean.

Database tables are modelled as Lean lists of rows (the row order is the
scan order of the table), JavaScript strings as Lean `String`, JavaScript
numbers as `ℝ` where the source computes with floats (BM25 scores, cosine
similarities) and as `ℕ` where it computes with integer counts (keyword
occurrence scores).  `Array.prototype.sort` with a comparator
`(a, b) => b.score - a.score` is a stable sort by descending score and is
modelled by `List.mergeSort` (stable) with the corresponding boolean
relation.  Fallible external calls (the LLM, the PST library, the
`readpst` tool) are oracle parameters of type `Except`/`Option`.
-/

/-! ### Generic list helpers: stable descending sort by a score key -/

/-- Boolean comparison used to model a JS comparator `(a, b) => sc(b) - sc(a)`
(descending by the key `sc`). -/
def descLe {α β : Type} [LinearOrder β] (sc : α → β) (a b : α) : Bool :=
  decide (sc b ≤ sc a)

/-- Model of `Array.prototype.sort` with a descending-by-key comparator:
a stable sort putting larger keys first. -/
def descSort {α β : Type} [LinearOrder β] (sc : α → β) (l : List α) : List α :=
  l.mergeSort (descLe sc)

/-! ### String utilities shared by the search layer (server/storage.ts) -/

/-- Dropping leading whitespace from a character list. -/
def dropWS : List Char → List Char
  | [] => []
  | c :: r => if c.isWhitespace then dropWS r else c :: r

/-- Model of `String.prototype.trim`: strip whitespace from both ends. -/
def strTrim (s : String) : String :=
  String.mk ((dropWS ((dropWS s.toList).reverse)).reverse)

/-- Model of `String.prototype.toLowerCase` (character-wise lower-casing). -/
def strLower (s : String) : String := String.mk (s.toList.map Char.toLower)

/-- Splitting a character list on whitespace into maximal non-whitespace
runs; `cur` is the (reversed) run being accumulated. -/
def splitWS (cs : List Char) (cur : List Char) : List String :=
  match cs with
  | [] => if cur = [] then [] else [String.mk cur.reverse]
  | c :: rest =>
    if c.isWhitespace then
      if cur = [] then splitWS rest []
      else String.mk cur.reverse :: splitWS rest []
    else splitWS rest (c :: cur)

/-- Model of `tokenize` (storage.ts), `trim` + `split(/\s+/)` + drop empties:
the maximal whitespace-free runs of the query. -/
def tokenize (query : String) : List String := splitWS query.toList []

/-- Number of non-overlapping occurrences of `pat` in `l`, scanning left to
right and skipping past each match — the number of matches of a global
regular-expression search for a literal pattern, as in
`lower.match(new RegExp(token, 'gi'))`. -/
def countOccs (pat : List Char) (l : List Char) : Nat :=
  match l with
  | [] => 0
  | c :: rest =>
    if h : pat ≠ [] ∧ pat.isPrefixOf (c :: rest) then
      1 + countOccs pat ((c :: rest).drop pat.length)
    else
      countOccs pat rest
termination_by l.length
decreasing_by
  · have hp : 0 < pat.length := List.length_pos.mpr h.1
    simp only [List.length_drop, List.length_cons]
    omega
  · simp only [List.length_cons]
    omega

/-- The characters with special meaning in a JavaScript regular-expression
pattern; a token containing none of them compiles and matches as a literal
(92, 123 and 125 are backslash and the braces). -/
def regexSpecialChars : List Char :=
  [Char.ofNat 92, '^', '$', '.', '|', '?', '*', '+', '(', ')', '[', ']',
    Char.ofNat 123, Char.ofNat 125]

/-- Whether a token is regex-literal: free of every regex metacharacter, so
that `new RegExp(token, 'gi')` compiles and matches exactly the literal
occurrences of the token. -/
def litToken (t : String) : Bool :=
  t.toList.all (fun c => decide (c ∉ regexSpecialChars))

/-- Abstract interface to the JavaScript regular-expression engine:
`rx pat text` is the number of matches of `text.match(new RegExp(pat, 'gi'))`
(0 when `match` yields null), or an error when `new RegExp(pat, 'gi')`
throws a SyntaxError. -/
def JsRegexOracle : Type := String → String → Except Unit Nat

/-- What every conforming engine does on literal patterns: a
metacharacter-free pattern compiles, never throws, and its global
case-preserving match count is the number of non-overlapping literal
occurrences. -/
def RxFaithful (rx : JsRegexOracle) : Prop :=
  ∀ pat text, litToken pat = true →
    rx pat text = Except.ok (countOccs pat.toList text.toList)

/-- An engine behaving like ECMAScript on literal patterns and rejecting
every other pattern; witnesses only apply it at literal patterns. -/
def litEngine : JsRegexOracle := fun pat text =>
  if litToken pat = true then Except.ok (countOccs pat.toList text.toList)
  else Except.error ()

/-- An engine recording the one fact of the ECMAScript pattern grammar the
counterexample needs: `new RegExp("c++")` throws a SyntaxError (a quantifier
with nothing to repeat), while literal patterns match literally. -/
def cexEngine : JsRegexOracle := fun pat text =>
  if pat = "c++" then Except.error ()
  else Except.ok (countOccs pat.toList text.toList)

/-- The per-token loop of `scoreText`: for each token in order, build the
case-insensitive global regex from the lower-cased token and count its
matches against the lower-cased text; the first token whose pattern fails
to compile aborts the loop with the thrown error. -/
def scoreTokens (rx : JsRegexOracle) (lowerText : String) :
    List String → Except Unit Nat
  | [] => Except.ok 0
  | t :: ts =>
    match rx (strLower t) lowerText with
    | .error u => .error u
    | .ok n =>
      match scoreTokens rx lowerText ts with
      | .error u => .error u
      | .ok m => .ok (n + m)

/-- Model of `scoreText` (storage.ts): 0 for an empty text or token list,
otherwise the total match count of every token's case-insensitive regex
(`new RegExp(token.toLowerCase(), 'gi')`) against the lower-cased text — or
the engine's error when some token is not a valid pattern. -/
def scoreText (rx : JsRegexOracle) (text : String) (tokens : List String) :
    Except Unit Nat :=
  if text = "" ∨ tokens = [] then Except.ok 0
  else scoreTokens rx (strLower text) tokens

/-- The literal occurrence score the claim describes: the total number of
non-overlapping case-insensitive occurrences of every token in the text.
On regex-literal tokens, a faithful engine makes `scoreText` compute
exactly this. -/
def literalScore (text : String) (tokens : List String) : Nat :=
  if text = "" ∨ tokens = [] then 0
  else (tokens.map (fun t => countOccs (strLower t).toList (strLower text).toList)).sum

/-- Case-insensitive substring test: what an `ILIKE '%needle%'` scan does
when the needle contains no wildcard characters. -/
def containsCI (hay needle : String) : Bool :=
  decide ((strLower needle).toList <:+: (strLower hay).toList)

/-- Case-sensitive substring test, as `String.prototype.includes`. -/
def containsStr (hay needle : String) : Bool :=
  decide (needle.toList <:+: hay.toList)

/-- All suffixes of a character list, longest first. -/
def allSuffixes : List Char → List (List Char)
  | [] => [[]]
  | c :: ts => (c :: ts) :: allSuffixes ts

/-- SQL `LIKE` pattern matching on character lists: `%` matches any
(possibly empty) sequence, `_` matches exactly one character, any other
pattern character matches itself. -/
def likeMatch : List Char → List Char → Bool
  | [], text => text.isEmpty
  | p :: ps, text =>
    if p = '%' then (allSuffixes text).any (fun t => likeMatch ps t)
    else
      match text with
      | [] => false
      | c :: ts => (p = '_' || p = c) && likeMatch ps ts

/-- One `ILIKE '%query%'` test, both sides lower-cased: `%`/`_` characters
inside the query itself keep their wildcard meaning, as in SQL. -/
def ilikeField (query : String) (field : String) : Bool :=
  likeMatch ('%' :: ((strLower query).toList ++ ['%'])) (strLower field).toList

/-- Mapping a fallible function over a list, stopping at the first thrown
error, as a JS `Array.map` whose callback may throw. -/
def mapExcept {α β : Type} (f : α → Except Unit β) :
    List α → Except Unit (List β)
  | [] => Except.ok []
  | a :: as =>
    match f a with
    | .error u => .error u
    | .ok b =>
      match mapExcept f as with
      | .error u => .error u
      | .ok bs => .ok (b :: bs)

/-! ### Data model: email rows and search results -/

/-- Row of the `emails` table (the fields the search layer reads; drizzle's
nullable text columns are modelled as strings, with `""` playing the role of
a falsy/empty value as in `e.subject || ""`). -/
structure EmailRow where
  id : Nat
  subject : String
  sender : String
  date : String
  body : String
deriving Repr, DecidableEq

/-- A `SearchResult` produced by the keyword search (integer occurrence
score). -/
structure KwResult where
  mailId : String
  subject : String
  score : Nat
  sender : Option String
  date : Option String
  body : String
deriving Repr, DecidableEq

/-- A `SearchResult` produced by the BM25 search (floating-point score,
modelled as a real number). -/
structure BmResult where
  mailId : String
  subject : String
  sender : Option String
  date : Option String
  body : String
  score : ℝ

namespace DatabaseStorage

/-- Conversion of an email row and its computed score to the keyword-search
`SearchResult` (storage.ts, `searchEmails`): `|| null` fields, subject
placeholder. -/
def mkKwResult (sc : Nat) (e : EmailRow) : KwResult :=
  { mailId := toString e.id
  , subject := if e.subject = "" then "(제목 없음)" else e.subject
  , score := sc
  , sender := if e.sender = "" then none else some e.sender
  , date := if e.date = "" then none else some e.date
  , body := e.body }

/-- The `ILIKE`-candidate predicate of `DatabaseStorage.searchEmails`: the
pattern `%query%` matches subject, body, sender or date case-insensitively
(wildcards inside the query included). -/
def ilikeAny (query : String) (e : EmailRow) : Bool :=
  ilikeField query e.subject || ilikeField query e.body ||
    ilikeField query e.sender || ilikeField query e.date

/-- Model of `DatabaseStorage.searchEmails` (storage.ts): tokenize; collect
at most 100 rows matching `ILIKE '%query%'` on subject/body/sender/date;
score each by `scoreText` over `subject body` — a token that fails to
compile as a regular expression makes the whole call throw — drop zero
scores; sort descending; return the first `max 1 topK`. -/
def searchEmails (rx : JsRegexOracle) (emailsTable : List EmailRow)
    (query : String) (topK : Nat) : Except Unit (List KwResult) :=
  let tokens := tokenize query
  if tokens = [] then Except.ok []
  else
    let rows := (emailsTable.filter (ilikeAny query)).take 100
    match mapExcept (fun e =>
      (scoreText rx (e.subject ++ " " ++ e.body) tokens).map
        (fun sc => mkKwResult sc e)) rows with
    | .error u => .error u
    | .ok scored0 =>
      .ok ((descSort (fun r : KwResult => r.score)
        (scored0.filter (fun r => 0 < r.score))).take (max 1 topK))

end DatabaseStorage

/-! ### Local SQLite storage (local-storage.ts) -/

/-- The optional search filters of `searchFiltersSchema` (shared/schema.ts). -/
structure SearchFilters where
  sender : Option String := none
  subject : Option String := none
  body : Option String := none
  startDate : Option String := none
  endDate : Option String := none
  operator : Option String := none
deriving Repr, DecidableEq

namespace LocalSQLiteStorage

/-- One `field LIKE '%value%'` clause added by `addClause`: nothing when the
value is absent or blank, otherwise a case-insensitive substring test on the
trimmed value. -/
def addClause (field : String) (v : Option String) : List Bool :=
  match v with
  | none => []
  | some s => if strTrim s = "" then [] else [ilikeField (strTrim s) field]

/-- The SQL `WHERE` clause of `LocalSQLiteStorage.searchEmails`, evaluated on
one row: the individual clauses in source order, combined with `AND` or `OR`
(`date >= ?` / `date <= ?` are SQLite's lexicographic string comparisons). -/
def rowMatches (query : String) (filters : Option SearchFilters) (e : EmailRow) :
    Bool :=
  let qc : List Bool :=
    if strTrim query ≠ "" then
      [ilikeField (strTrim query) e.subject || ilikeField (strTrim query) e.body ||
        ilikeField (strTrim query) e.sender || ilikeField (strTrim query) e.date]
    else []
  let f := filters
  let cs : List Bool :=
    qc ++ addClause e.sender (f.bind (·.sender)) ++
      addClause e.subject (f.bind (·.subject)) ++
      addClause e.body (f.bind (·.body)) ++
      (match f.bind (·.startDate) with
        | some s => if strTrim s = "" then [] else [decide (strTrim s ≤ e.date)]
        | none => []) ++
      (match f.bind (·.endDate) with
        | some s => if strTrim s = "" then [] else [decide (e.date ≤ strTrim s)]
        | none => [])
  let isOr := strLower ((f.bind (·.operator)).getD "and") = "or"
  if cs = [] then true
  else if isOr then cs.any id else cs.all id

/-- Conversion of a row and its computed score to a `SearchResult` in the
local keyword search. -/
def mkKwResult (sc : Nat) (e : EmailRow) : KwResult :=
  { mailId := toString e.id
  , subject := if e.subject = "" then "(제목 없음)" else e.subject
  , score := sc
  , sender := if e.sender = "" then none else some e.sender
  , date := if e.date = "" then none else some e.date
  , body := e.body }

/-- Model of `LocalSQLiteStorage.searchEmails` (local-storage.ts): tokens come
from the query concatenated with all filter values; candidate rows are the
first 200 satisfying the SQL `WHERE`; rows are scored by `scoreText` over
`subject body sender date` (an invalid token pattern throws), zero scores
dropped, sorted descending, truncated to `max 1 topK`. -/
def searchEmails (rx : JsRegexOracle) (emailsTable : List EmailRow)
    (query : String) (topK : Nat) (filters : Option SearchFilters) :
    Except Unit (List KwResult) :=
  let combined := query ++ " " ++ ((filters.bind (·.sender)).getD "") ++ " " ++
    ((filters.bind (·.subject)).getD "") ++ " " ++
    ((filters.bind (·.body)).getD "") ++ " " ++
    ((filters.bind (·.startDate)).getD "") ++ " " ++
    ((filters.bind (·.endDate)).getD "")
  let tokens := tokenize combined
  if tokens = [] then Except.ok []
  else
    let rows := (emailsTable.filter (rowMatches query filters)).take 200
    match mapExcept (fun e =>
      (scoreText rx
        (e.subject ++ " " ++ e.body ++ " " ++ e.sender ++ " " ++ e.date)
        tokens).map (fun sc => mkKwResult sc e)) rows with
    | .error u => .error u
    | .ok scored0 =>
      .ok ((descSort (fun r : KwResult => r.score)
        (scored0.filter (fun r => 0 < r.score))).take (max 1 topK))

/-- Model of `LocalSQLiteStorage.searchEmailsBm25` (local-storage.ts): reuse
the keyword search (a throw propagates), re-sort by descending score,
truncate to `topK`; the BM25 formula is never applied. -/
def searchEmailsBm25 (rx : JsRegexOracle) (emailsTable : List EmailRow)
    (query : String) (topK : Nat) : Except Unit (List KwResult) :=
  (searchEmails rx emailsTable query topK none).map
    (fun results =>
      (descSort (fun r : KwResult => r.score) results).take topK)

/-- Row shape returned by the calendar-event keyword search. -/
structure EventHit where
  id : Nat
  title : String
  startDate : String
  endDate : Option String
deriving Repr, DecidableEq

/-- Model of `LocalSQLiteStorage.searchEventsByKeyword` (local-storage.ts):
event search is not supported in SQLite mode and always yields nothing. -/
def searchEventsByKeyword (_keyword : String) : List EventHit := []

end LocalSQLiteStorage

/-! ### BM25 ranking (server/storage.ts, `DatabaseStorage`) -/

/-- Term frequency: occurrences of token `t` in a tokenized document
(the `tf` map of `bm25Rank`). -/
def tf (doc : List String) (t : String) : Nat := doc.count t

/-- Document frequency: number of documents containing token `t`
(the `df` map of `bm25Rank`, built from each document's unique tokens). -/
def dfCount (docTokens : List (List String)) (t : String) : Nat :=
  docTokens.countP (fun d => decide (t ∈ d))

/-- BM25 score of one document (token list `tokens`) against the query
tokens, with `k1 = 1.2`, `b = 0.75` and
`idf = ln (1 + (N - n + 0.5) / (n + 0.5))`, exactly as in `bm25Rank`;
query tokens absent from the document contribute nothing. -/
noncomputable def bm25DocScore (docTokens : List (List String)) (N : Nat)
    (avgdl : ℝ) (queryTokens : List String) (tokens : List String) : ℝ :=
  (queryTokens.map (fun q =>
    let f : Nat := tf tokens (strLower q)
    if f = 0 then 0
    else
      let n : Nat := dfCount docTokens (strLower q)
      let idf : ℝ := Real.log (1 + ((N : ℝ) - (n : ℝ) + 0.5) / ((n : ℝ) + 0.5))
      let dl : ℝ := (tokens.length : ℝ)
      let denom : ℝ := (f : ℝ) + 1.2 * (1 - 0.75 + 0.75 * (dl / max 1e-6 avgdl))
      idf * ((f : ℝ) * (1.2 + 1)) / denom)).sum

/-- The tokenized lower-cased documents (`docTokens` in `bm25Rank`). -/
def bm25DocTokens (docs : List (Nat × String)) : List (List String) :=
  docs.map (fun d => tokenize (strLower d.2))

/-- The average document length of `bm25Rank`, over `max 1 N`. -/
noncomputable def bm25Avgdl (docs : List (Nat × String)) : ℝ :=
  (((bm25DocTokens docs).map (fun t => (t.length : ℝ))).sum) /
    (max 1 docs.length : ℕ)

/-- Model of `DatabaseStorage.bm25Rank` (storage.ts): tokenize each lower-cased
document, compute the average document length over `max 1 N`, and score every
document against the query tokens. -/
noncomputable def bm25Rank (docs : List (Nat × String)) (queryTokens : List String) :
    List (Nat × ℝ) :=
  docs.map (fun d =>
    (d.1, bm25DocScore (bm25DocTokens docs) docs.length (bm25Avgdl docs)
      queryTokens (tokenize (strLower d.2))))

/-- The document text `bm25Rank` receives for one email row: the lower-cased
`subject sender body`. -/
def bm25DocText (e : EmailRow) : String :=
  strLower (e.subject ++ " " ++ e.sender ++ " " ++ e.body)

/-- The BM25 score one candidate email receives inside `searchEmailsBm25`
against the other candidates. -/
noncomputable def bm25EmailScore (candidates : List EmailRow)
    (queryTokens : List String) (e : EmailRow) : ℝ :=
  let docs := candidates.map (fun c => (c.id, bm25DocText c))
  bm25DocScore (bm25DocTokens docs) docs.length (bm25Avgdl docs) queryTokens
    (tokenize (strLower (bm25DocText e)))

namespace DatabaseStorage

/-- Model of `DatabaseStorage.searchEmailsBm25` (storage.ts): scan at most
3000 rows, build the lower-cased `subject sender body` documents, BM25-rank
them, keep strictly positive scores, sort descending and keep `max 1 topK`;
then rebuild `SearchResult`s from the picked candidate rows and their scores
and sort those by descending score again. -/
noncomputable def searchEmailsBm25 (emailsTable : List EmailRow) (query : String)
    (topK : Nat) : List BmResult :=
  let tokens := tokenize query
  if tokens = [] then []
  else
    let candidates := emailsTable.take 3000
    let docs := candidates.map (fun e => (e.id, bm25DocText e))
    let scored := (descSort Prod.snd
      ((bm25Rank docs tokens).filter (fun s => decide (0 < s.2)))).take (max 1 topK)
    let idSet := scored.map Prod.fst
    let picked := candidates.filter (fun e => decide (e.id ∈ idSet))
    let results := picked.map (fun e =>
      ({ mailId := toString e.id
       , subject := e.subject
       , sender := if e.sender = "" then none else some e.sender
       , date := if e.date = "" then none else some e.date
       , body := e.body
       , score := ((scored.find? (fun s => s.1 = e.id)).map Prod.snd).getD 0 } : BmResult))
    descSort (fun r : BmResult => r.score) results

end DatabaseStorage

/-! ### Vector similarity and RAG chunk search (server/ollama.ts, storage.ts) -/

/-- Row of the `rag_chunks` table; the JSON-encoded embedding column is
modelled as the decoded vector. -/
structure RagChunk where
  id : Nat
  emailId : Nat
  chunkIndex : Nat
  content : String
  embedding : List ℝ

/-- Model of `cosineSimilarity` (ollama.ts): 0 when the lengths differ, 0 when
either norm is zero, otherwise the normalized dot product. -/
noncomputable def cosineSimilarity (a b : List ℝ) : ℝ :=
  if a.length ≠ b.length then 0
  else
    let dotProduct := (List.zipWith (· * ·) a b).sum
    let normA := (a.map (fun x => x * x)).sum
    let normB := (b.map (fun x => x * x)).sum
    if normA = 0 ∨ normB = 0 then 0
    else dotProduct / (Real.sqrt normA * Real.sqrt normB)

namespace DatabaseStorage

/-- Model of `DatabaseStorage.searchRagChunks` (storage.ts): score every
stored chunk by cosine similarity against the query embedding, sort
descending, return the first `topK`. -/
noncomputable def searchRagChunks (chunks : List RagChunk)
    (queryEmbedding : List ℝ) (topK : Nat) : List (RagChunk × ℝ) :=
  (descSort Prod.snd
    (chunks.map (fun c => (c, cosineSimilarity queryEmbedding c.embedding)))).take topK

end DatabaseStorage

/-! ### RAG context assembly of POST /api/ai/chat (server/routes.ts) -/

/-- Splitting a character list at every character satisfying `p`, keeping
the (possibly empty) pieces, as `String.prototype.split` on a one-character
class regex; the handler splits on character runs, but runs produce the same
pieces once empty pieces are dropped by the length filter. -/
def splitOn (p : Char → Bool) (cs : List Char) : List String :=
  match cs with
  | [] => [""]
  | c :: rest =>
    let r := splitOn p rest
    if p c then "" :: r
    else
      match r with
      | [] => [String.mk [c]]
      | h :: t => String.mk (c :: h.toList) :: t

/-- Characters kept by the query-token splitter `[^0-9A-Za-z가-힣-]+`:
digits, ASCII letters, Hangul syllables, and the hyphen. -/
def isQueryTokenChar (c : Char) : Bool :=
  c.isDigit || ( 'A' ≤ c && c ≤ 'Z') || ( 'a' ≤ c && c ≤ 'z') ||
    (0xAC00 ≤ c.toNat && c.toNat ≤ 0xD7A3) || (c = '-')

/-- Deduplication keeping first occurrences, as `Array.from(new Set(xs))`. -/
def firstDedup : List String → List String
  | [] => []
  | x :: xs => x :: firstDedup (xs.filter (fun y => y ≠ x))
termination_by l => l.length
decreasing_by
  refine Nat.lt_of_le_of_lt (List.length_filter_le _ _) ?_
  simp

/-- The query tokens of the chat handler: split the retrieval query on runs of
non-token characters, trim, keep tokens of length at least 2, deduplicate. -/
def chatQueryTokens (retrievalQuery : String) : List String :=
  firstDedup
    (((splitOn (fun c => !(isQueryTokenChar c)) retrievalQuery.toList).map strTrim).filter
      (fun t => 2 ≤ t.length))

/-- Whether a chunk content matches the query tokens: vacuously when there are
no tokens, otherwise some token occurs as a substring of the content. -/
def hasTokenMatch (queryTokens : List String) (content : String) : Bool :=
  queryTokens.isEmpty ||
    queryTokens.any (fun t => decide (t.toList <:+: content.toList))

/-- The admission condition of the vector-retrieval loop, as one predicate:
similarity at least 0.50, and a query-token match or similarity at
least 0.75. -/
noncomputable def vecPass (queryTokens : List String) (r : RagChunk × ℝ) : Bool :=
  decide ((0.50 : ℝ) ≤ r.2) &&
    (hasTokenMatch queryTokens r.1.content || decide ((0.75 : ℝ) ≤ r.2))

/-- State of the vector-retrieval loop of the chat handler. -/
structure VecScanState where
  maxSim : ℝ
  vecs : List (String × ℝ)
  firstAbove : Option (String × ℝ)

/-- One iteration of the vector-retrieval loop: track the maximal similarity;
admit a chunk when its similarity reaches 0.50 and it either matches a query
token or reaches similarity 0.75; the `else if` branch records a first
above-threshold chunk but is only reached below the threshold. -/
noncomputable def vecScanStep (queryTokens : List String) (s : VecScanState)
    (r : RagChunk × ℝ) : VecScanState :=
  let m := max s.maxSim r.2
  if (0.50 : ℝ) ≤ r.2 then
    if ¬(hasTokenMatch queryTokens r.1.content = true) ∧ r.2 < 0.75 then
      { s with maxSim := m }
    else
      { maxSim := m, vecs := s.vecs ++ [(r.1.content, r.2)]
      , firstAbove := s.firstAbove }
  else if s.firstAbove = none ∧ (0.50 : ℝ) ≤ r.2 then
    { s with maxSim := m, firstAbove := some (r.1.content, r.2) }
  else
    { s with maxSim := m }

/-- The vector-retrieval loop over the retrieved chunks. -/
noncomputable def vecScan (queryTokens : List String) (rs : List (RagChunk × ℝ)) :
    VecScanState :=
  rs.foldl (vecScanStep queryTokens) ⟨0, [], none⟩

/-- The vector results after the fallback block: when the loop admitted
nothing but recorded a first above-threshold chunk, use that chunk alone. -/
noncomputable def chatVectorResults (queryTokens : List String)
    (rs : List (RagChunk × ℝ)) : List (String × ℝ) :=
  let s := vecScan queryTokens rs
  if s.vecs.isEmpty then
    match s.firstAbove with
    | some f => [f]
    | none => []
  else s.vecs

/-- The BM25-fallback condition `needBm25`: no vector results, or the maximal
similarity seen is below the 0.50 threshold. -/
noncomputable def chatNeedBm25 (queryTokens : List String)
    (rs : List (RagChunk × ℝ)) : Bool :=
  (chatVectorResults queryTokens rs).isEmpty ||
    decide ((vecScan queryTokens rs).maxSim < 0.50)

/-- One merged context entry: a vector hit or a BM25 keyword hit. -/
inductive CtxItem where
  | vec (content : String) (similarity : ℝ)
  | kw (subject sender date body : String) (score : ℝ)

/-- Whether a context item came from the vector search. -/
def CtxItem.isVec : CtxItem → Bool
  | .vec _ _ => true
  | .kw _ _ _ _ _ => false

/-- The deduplication key of a context item: the first 120 characters of the
content for vector hits, `subject + sender` for keyword hits. -/
def ctxKey : CtxItem → String
  | .vec c _ => String.mk (c.toList.take 120)
  | .kw s snd _ _ _ => s ++ snd

/-- One iteration of the context-merge loops: stop adding at 3 items, skip
items whose key was already seen, otherwise append the item and its key. -/
def mergeStep (st : List String × List CtxItem) (x : CtxItem) :
    List String × List CtxItem :=
  if 3 ≤ st.2.length then st
  else if ctxKey x ∈ st.1 then st
  else (st.1 ++ [ctxKey x], st.2 ++ [x])

/-- The retrieved chunks of the chat handler: none when the chunk table is
empty or no query embedding could be generated, otherwise the top 3 by
cosine similarity. -/
noncomputable def chatRelevantChunks (chunks : List RagChunk)
    (queryEmbedding : Option (List ℝ)) : List (RagChunk × ℝ) :=
  if chunks.isEmpty then []
  else
    match queryEmbedding with
    | none => []
    | some qv => DatabaseStorage.searchRagChunks chunks qv 3

/-- The BM25 keyword results consulted by the chat handler: 6 candidates from
`searchEmailsBm25`, only when `needBm25` holds. -/
noncomputable def chatBm25Items (emailsTable : List EmailRow)
    (retrievalQuery : String) (queryTokens : List String)
    (rs : List (RagChunk × ℝ)) : List CtxItem :=
  if chatNeedBm25 queryTokens rs then
    (DatabaseStorage.searchEmailsBm25 emailsTable retrievalQuery 6).map
      (fun e => CtxItem.kw e.subject (e.sender.getD "") (e.date.getD "") e.body e.score)
  else []

/-- The assembled email RAG context of POST /api/ai/chat: vector results
first, then BM25 keyword results, deduplicated by key and capped at 3. -/
noncomputable def chatContext (emailsTable : List EmailRow)
    (chunks : List RagChunk) (queryEmbedding : Option (List ℝ))
    (retrievalQuery : String) : List CtxItem :=
  let queryTokens := chatQueryTokens retrievalQuery
  let rs := chatRelevantChunks chunks queryEmbedding
  let vecs := chatVectorResults queryTokens rs
  let items := (vecs.map (fun v => CtxItem.vec v.1 v.2)) ++
    chatBm25Items emailsTable retrievalQuery queryTokens rs
  (items.foldl mergeStep ([], [])).2

/-! ### PST parsing with readpst fallback (server/pst-parser.ts) -/

/-- An email extracted from a PST file (the fields produced by
`processFolder` / `parseEmlContent`). -/
structure ParsedEmail where
  subject : String
  sender : String
  date : String
  body : String
deriving Repr, DecidableEq

/-- The result record returned by the PST parsing functions. -/
structure PSTParseResult where
  emails : List ParsedEmail
  totalCount : Nat
  errorCount : Nat
  errors : List String
deriving Repr, DecidableEq

/-- Outcome of the pst-extractor library pass: either `PSTFile` construction /
root-folder access throws with a message, or `processFolder` completes,
having accumulated the successfully parsed emails and the per-email and
per-folder error messages (`processFolder` itself never throws: every failure
is caught and recorded). -/
def LibOutcome : Type := Except String (List ParsedEmail × List String)

/-- Outcome of `parseWithReadpst`: it catches everything internally, so it
always yields the extracted emails and accumulated error messages. -/
def ReadpstOutcome : Type := List ParsedEmail × List String

/-- The classification of a library failure message performed by the catch
block of `parsePSTFile`. -/
def pstErrorMessage (errMsg : String) : String :=
  if containsStr errMsg "findBtreeItem" || containsStr errMsg "Unable to find" then
    "PST 파일 형식 오류: Unicode PST 형식이지만 파싱에 실패했습니다. (" ++ errMsg ++ ")"
  else if containsStr errMsg "password" || containsStr errMsg "encrypted" then
    "PST 파일이 암호로 보호되어 있습니다. 암호를 해제한 후 다시 시도해주세요."
  else
    "PST 파일 열기 실패: " ++ errMsg

/-- Model of `parseWithReadpst` packaging its outcome into a result record. -/
def parseWithReadpst (fb : ReadpstOutcome) : PSTParseResult :=
  { emails := fb.1, totalCount := fb.1.length
  , errorCount := fb.2.length, errors := fb.2 }

/-- Model of `parsePSTFile` (pst-parser.ts): try the pst-extractor library;
on a throw, run the readpst fallback; return the fallback result whenever it
extracted at least one email; otherwise report the classified library error
followed by the fallback errors. -/
def parsePSTFile (lib : LibOutcome) (fb : ReadpstOutcome) : PSTParseResult :=
  match lib with
  | .ok (es, errs) =>
    { emails := es, totalCount := es.length
    , errorCount := errs.length, errors := errs }
  | .error errMsg =>
    let fallbackResult := parseWithReadpst fb
    if fallbackResult.emails.length > 0 then fallbackResult
    else
      let errors := pstErrorMessage errMsg :: fallbackResult.errors
      { emails := [], totalCount := 0
      , errorCount := errors.length, errors := errors }

/-! ### Email classification (server/ollama.ts `classifyEmail`) -/

/-- The classification result record. -/
structure ClassificationResult where
  classification : String
  confidence : String
deriving Repr, DecidableEq

/-- A JSON value as far as the classifier inspects one: a string or
anything else (strict equality against the allowed strings fails for
non-strings). -/
inductive JVal where
  | jstr (s : String)
  | jother
deriving Repr, DecidableEq

/-- A parsed JSON object: its fields. -/
def JObj : Type := List (String × JVal)

/-- Field lookup in a parsed JSON object. -/
def jGet (o : JObj) (k : String) : Option JVal :=
  (o.find? (fun p => p.1 = k)).map Prod.snd

/-- The opening brace character. -/
def lbrace : Char := Char.ofNat 123

/-- The closing brace character. -/
def rbrace : Char := Char.ofNat 125

/-- Model of `response.match(/\x7b[\s\S]*\x7d/)`: the (greedy) slice from the
first opening brace to the last closing brace, when the latter comes after
the former. -/
def extractBraced (s : String) : Option String :=
  let cs := s.toList
  match cs.findIdx? (fun c => c = lbrace) with
  | none => none
  | some i =>
    match cs.reverse.findIdx? (fun c => c = rbrace) with
    | none => none
    | some jr =>
      let j := cs.length - 1 - jr
      if i < j then some (String.mk ((cs.drop i).take (j - i + 1)))
      else none

/-- The four allowed classification labels. -/
def allowedClassifications : List String := ["task", "meeting", "approval", "notice"]

/-- Model of `classifyEmail` (ollama.ts): `llm` is the outcome of the chat
call (`Except` for a throw), `jparse` is `JSON.parse` on the braced slice
(`none` for a parse error, which the surrounding `try` turns into the
fallback).  Invalid classification values fall back to `task`, invalid
confidence values to `medium`; a failed call or unparseable reply yields
`task`/`low`. -/
def classifyEmail (jparse : String → Option JObj) (llm : Except Unit String) :
    ClassificationResult :=
  match llm with
  | .error _ => ⟨"task", "low"⟩
  | .ok response =>
    match extractBraced response with
    | none => ⟨"task", "low"⟩
    | some jsonStr =>
      match jparse jsonStr with
      | none => ⟨"task", "low"⟩
      | some obj =>
        let classification :=
          match jGet obj "classification" with
          | some (.jstr v) => if v ∈ allowedClassifications then v else "task"
          | _ => "task"
        let confidence :=
          match jGet obj "confidence" with
          | some (.jstr v) =>
            if v = "high" ∨ v = "medium" ∨ v = "low" then v else "medium"
          | _ => "medium"
        ⟨classification, confidence⟩

/-! ### Request validation (shared/schema.ts `chatRequestSchema`) -/

/-- Whether an optional string is present and non-blank, as
`(v || "").trim().length > 0`. -/
def hasText (v : Option String) : Bool := strTrim (v.getD "") ≠ ""

/-- The field `f.date` read by the `superRefine` of `chatRequestSchema`:
`searchFiltersSchema` defines no `date` key and zod strips unknown keys, so
the read always yields `undefined`. -/
def filtersDateField (_f : SearchFilters) : Option String := none

/-- Model of the `superRefine` of `chatRequestSchema` (shared/schema.ts): the
request passes when the message is non-blank or one of the filter fields the
check actually reads (`sender`, `subject`, `body`, and the nonexistent
`date`) is non-blank. -/
def chatRequestPasses (message : Option String) (filters : Option SearchFilters) :
    Bool :=
  let hasMessage := hasText message
  let hasFilter :=
    match filters with
    | none => false
    | some f =>
      [f.sender, f.subject, f.body, filtersDateField f].any hasText
  hasMessage || hasFilter

/-- The validation step of the POST /api/search handler (routes.ts): when the
schema rejects, answer 400 with the refine message; otherwise continue with
the rest of the handler (whose response is the `rest` argument).  The status
is the first component, the error message the second. -/
def searchRouteValidation (message : Option String) (filters : Option SearchFilters)
    (rest : Nat × Option String) : Nat × Option String :=
  if chatRequestPasses message filters then rest
  else (400, some "검색어 또는 필터를 입력하세요")

/-! ### Per-email processing loops (routes.ts POST /api/import and
POST /api/emails/reprocess) -/

/-- An extracted calendar event as the LLM returns it; empty strings model
falsy/missing `title` or `startDate`. -/
structure CalEventIn where
  title : String
  startDate : String
  endDate : Option String
  location : Option String
  description : Option String
deriving Repr, DecidableEq

/-- The stored artifacts the processing loops write, each an append-only
table: classifications, calendar events and RAG chunks keyed by email id,
plus the processed marks. -/
structure Store where
  classifications : List (Nat × ClassificationResult)
  events : List (Nat × CalEventIn)
  chunks : List (Nat × List String)
  processed : List Nat
deriving Repr, DecidableEq

/-- The fallible AI calls made for one email, as oracles: classification,
event extraction and chunk embedding can each throw. -/
structure AiOracle where
  classify : Nat → Except Unit ClassificationResult
  extractEvents : Nat → Except Unit (List CalEventIn)
  embed : Nat → Except Unit (List String)

/-- Extended email row carrying the processing flags read by the reprocess
loop. -/
structure EmailRowFull where
  row : EmailRow
  classification : Option String
  isProcessed : Bool
deriving Repr, DecidableEq

/-- The body of the POST /api/import per-email loop: classify and store, then
extract and store every event, then embed and store the chunks, then mark
processed; a throw anywhere (`Bool` result `true`) abandons the rest of this
email's steps but keeps the effects already performed. -/
def importStep (o : AiOracle) (e : EmailRow) (s : Store) : Store × Bool :=
  match o.classify e.id with
  | .error _ => (s, true)
  | .ok cls =>
    let s1 := { s with classifications := s.classifications ++ [(e.id, cls)] }
    match o.extractEvents e.id with
    | .error _ => (s1, true)
    | .ok evs =>
      let s2 := { s1 with events := s1.events ++ evs.map (fun ev => (e.id, ev)) }
      match o.embed e.id with
      | .error _ => (s2, true)
      | .ok chs =>
        let s3 :=
          if chs.length > 0 then { s2 with chunks := s2.chunks ++ [(e.id, chs)] }
          else s2
        ({ s3 with processed := s3.processed ++ [e.id] }, false)

/-- The POST /api/import processing loop: every email is processed exactly
once in order; the per-email `try`/`catch` only logs a failure and moves on.
Returns the final store and the trace of `(email id, failed?)`. -/
def runImportLoop (o : AiOracle) : List EmailRow → Store → Store × List (Nat × Bool)
  | [], s => (s, [])
  | e :: rest, s =>
    let r := importStep o e s
    let rec' := runImportLoop o rest r.1
    (rec'.1, (e.id, r.2) :: rec'.2)

/-- First stage of the reprocess loop body: classify only when the email has
no classification yet. -/
def reprocessClassifyStage (o : AiOracle) (e : EmailRowFull) (s : Store) :
    Except Unit Store :=
  match e.classification with
  | some _ => .ok s
  | none =>
    match o.classify e.row.id with
    | .error _ => .error ()
    | .ok cls =>
      .ok { s with classifications := s.classifications ++ [(e.row.id, cls)] }

/-- Second stage: extract events only when none are stored for this email,
skipping events with a falsy title or start date. -/
def reprocessEventsStage (o : AiOracle) (e : EmailRowFull) (s1 : Store) :
    Except Unit Store :=
  if (s1.events.filter (fun p => p.1 = e.row.id)).isEmpty then
    match o.extractEvents e.row.id with
    | .error _ => .error ()
    | .ok evs =>
      let valid := evs.filter (fun ev => ev.title ≠ "" && ev.startDate ≠ "")
      .ok { s1 with events := s1.events ++ valid.map (fun ev => (e.row.id, ev)) }
  else .ok s1

/-- Third stage: embed only when no chunks are stored for this email. -/
def reprocessChunksStage (o : AiOracle) (e : EmailRowFull) (s2 : Store) :
    Except Unit Store :=
  if (s2.chunks.filter (fun p => p.1 = e.row.id)).isEmpty then
    match o.embed e.row.id with
    | .error _ => .error ()
    | .ok chs =>
      .ok (if chs.length > 0 then
        { s2 with chunks := s2.chunks ++ [(e.row.id, chs)] }
      else s2)
  else .ok s2

/-- The body of the POST /api/emails/reprocess per-email loop: the three
stages in order, then mark processed.  A throw in one of the AI calls
abandons the rest of this email's steps but keeps the effects already
performed. -/
def reprocessStep (o : AiOracle) (e : EmailRowFull) (s : Store) : Store × Bool :=
  match reprocessClassifyStage o e s with
  | .error _ => (s, true)
  | .ok s1 =>
    match reprocessEventsStage o e s1 with
    | .error _ => (s1, true)
    | .ok s2 =>
      match reprocessChunksStage o e s2 with
      | .error _ => (s2, true)
      | .ok s3 => ({ s3 with processed := s3.processed ++ [e.row.id] }, false)

/-- The POST /api/emails/reprocess processing loop, with the same
skip-and-continue failure handling as the import loop. -/
def runReprocessLoop (o : AiOracle) :
    List EmailRowFull → Store → Store × List (Nat × Bool)
  | [], s => (s, [])
  | e :: rest, s =>
    let r := reprocessStep o e s
    let rec' := runReprocessLoop o rest r.1
    (rec'.1, (e.row.id, r.2) :: rec'.2)

/-- The stored artifacts of `s` survive unchanged (as a prefix of the
append-only tables) into `s'`. -/
def StorePrefix (s s' : Store) : Prop :=
  s.classifications <+: s'.classifications ∧ s.events <+: s'.events ∧
    s.chunks <+: s'.chunks ∧ s.processed <+: s'.processed

/-! ### Route-level error mapping (server/routes.ts) -/

/-- The API routes registered in `registerRoutes`. -/
inductive Route where
  | stats | importRoute | search | ping | ollamaStatus | conversations
  | messages | aiChat | draftReply | classificationStats | reprocess
  | eventsExtract | events | emails | classifyOne | settingsGet
  | settingsPost | processUnprocessed
deriving Repr, DecidableEq

/-- A value thrown by a handler body: whether it is a `ZodError`, and its
`.message` when it is an `Error` instance (`none` models a non-`Error`
throw). -/
structure Thrown where
  isZod : Bool
  msg : Option String
deriving Repr, DecidableEq

/-- An HTTP response as far as the error-mapping claims inspect it: the
status code and the `error`/`message` string of the JSON body, when the body
is an error report. -/
structure RouteResponse where
  status : Nat
  errMsg : Option String
deriving Repr, DecidableEq

/-- What a request does inside a handler: the schema rejects the body (for
the routes that validate one), the body throws, or the body runs to
completion and sends some response. -/
inductive Outcome where
  | invalid (msgs : List String)
  | thrown (t : Thrown)
  | completes (resp : RouteResponse)
deriving Repr, DecidableEq

/-- Whether a route validates its request body with a zod schema
(`chatRequestSchema`, `aiChatRequestSchema`, `eventExtractionRequestSchema`). -/
def hasSchema : Route → Bool
  | .search | .aiChat | .eventsExtract => true
  | _ => false

/-- The 400 message built from the zod issues:
`errors.map(e => e.message).join(", ")`, falling back to a default when the
joined string is empty. -/
def joinedOrDefault (msgs : List String) : String :=
  let j := String.intercalate ", " msgs
  if j = "" then "잘못된 요청입니다." else j

/-- The response produced by each route's `catch` block for a thrown value
(translated per route from routes.ts); `/api/ollama/status` answers 200 with
`connected: false` and no error message, `/api/search` maps a `ZodError` to
400, and every other route answers 500. -/
def catchResponse : Route → Thrown → RouteResponse
  | .stats, _ => ⟨500, some "Failed to get stats"⟩
  | .importRoute, t => ⟨500, some (t.msg.getD "가져오기 중 오류가 발생했습니다.")⟩
  | .search, t =>
    if t.isZod then ⟨400, some "잘못된 요청 형식입니다."⟩
    else ⟨500, some "검색 중 오류가 발생했습니다."⟩
  | .ping, _ => ⟨200, none⟩
  | .ollamaStatus, _ => ⟨200, none⟩
  | .conversations, _ => ⟨500, some "대화 목록을 가져오는 중 오류가 발생했습니다."⟩
  | .messages, _ => ⟨500, some "메시지를 가져오는 중 오류가 발생했습니다."⟩
  | .aiChat, t => ⟨500, some (t.msg.getD "AI 채팅 중 오류가 발생했습니다.")⟩
  | .draftReply, t => ⟨500, some (t.msg.getD "회신 초안 생성 중 오류가 발생했습니다.")⟩
  | .classificationStats, _ => ⟨500, some "분류 통계를 가져오는 중 오류가 발생했습니다."⟩
  | .reprocess, t => ⟨500, some (t.msg.getD "재처리 중 오류가 발생했습니다.")⟩
  | .eventsExtract, t => ⟨500, some (t.msg.getD "일정 추출 중 오류가 발생했습니다.")⟩
  | .events, _ => ⟨500, some "일정을 가져오는 중 오류가 발생했습니다."⟩
  | .emails, _ => ⟨500, some "이메일 목록을 가져오는 중 오류가 발생했습니다."⟩
  | .classifyOne, t => ⟨500, some (t.msg.getD "분류 중 오류가 발생했습니다.")⟩
  | .settingsGet, _ => ⟨500, some "설정을 가져오는 중 오류가 발생했습니다."⟩
  | .settingsPost, _ => ⟨500, some "설정 저장 중 오류가 발생했습니다."⟩
  | .processUnprocessed, _ => ⟨500, some "처리 중 오류가 발생했습니다."⟩

/-- Well-formedness of an outcome for a route: only schema routes can fail
schema validation, and `/api/ping` (a synchronous constant handler) cannot
throw. -/
def OutcomeWF (r : Route) : Outcome → Prop
  | .invalid _ => hasSchema r = true
  | .thrown _ => r ≠ .ping
  | .completes _ => True

/-- The route-level request handling common to every handler in routes.ts:
schema-validation failures answer 400 with the joined zod messages; a thrown
body is answered by the route's `catch` block; a completed body sends its
own response.  Handlers never let an exception propagate. -/
def handleRoute (r : Route) : Outcome → RouteResponse
  | .invalid msgs => ⟨400, some (joinedOrDefault msgs)⟩
  | .thrown t => catchResponse r t
  | .completes resp => resp

/-!
## Theorems

General facts about the descending stable sort, then one theorem (plus
witness / counterexample where required) per claim.
-/

theorem descLe_trans {α β : Type} [LinearOrder β] (sc : α → β) (a b c : α)
    (hab : descLe sc a b = true) (hbc : descLe sc b c = true) :
    descLe sc a c = true := by
  simp only [descLe, decide_eq_true_eq] at *
  exact le_trans hbc hab

theorem descLe_total {α β : Type} [LinearOrder β] (sc : α → β) (a b : α) :
    (descLe sc a b || descLe sc b a) = true := by
  simp only [descLe, decide_eq_true_eq, Bool.or_eq_true]
  exact le_total (sc b) (sc a)

theorem descSort_perm {α β : Type} [LinearOrder β] (sc : α → β) (l : List α) :
    (descSort sc l).Perm l :=
  List.mergeSort_perm l (descLe sc)

theorem mem_descSort {α β : Type} [LinearOrder β] (sc : α → β) (l : List α)
    (a : α) : a ∈ descSort sc l ↔ a ∈ l :=
  List.mem_mergeSort

theorem length_descSort {α β : Type} [LinearOrder β] (sc : α → β) (l : List α) :
    (descSort sc l).length = l.length :=
  List.length_mergeSort l

theorem pairwise_descSort {α β : Type} [LinearOrder β] (sc : α → β) (l : List α) :
    List.Pairwise (fun a b => sc b ≤ sc a) (descSort sc l) := by
  have h := List.sorted_mergeSort
    (fun a b c => descLe_trans sc a b c) (descLe_total sc) l
  exact h.imp (fun hab => by
    simpa only [descLe, decide_eq_true_eq] using hab)

theorem pairwise_take_descSort {α β : Type} [LinearOrder β] (sc : α → β)
    (l : List α) (k : Nat) :
    List.Pairwise (fun a b => sc b ≤ sc a) ((descSort sc l).take k) :=
  List.Pairwise.sublist (List.take_sublist k (descSort sc l))
    (pairwise_descSort sc l)

theorem descSort_of_pairwise {α β : Type} [LinearOrder β] (sc : α → β)
    {l : List α} (h : List.Pairwise (fun a b => sc b ≤ sc a) l) :
    descSort sc l = l := by
  refine List.mergeSort_of_sorted (h.imp ?_)
  intro a b hab
  simpa only [descLe, decide_eq_true_eq] using hab

theorem resort_take_of_sorted {α β : Type} [LinearOrder β] (sc : α → β)
    (out : List α) (k : Nat)
    (hs : List.Pairwise (fun a b => sc b ≤ sc a) out) (hl : out.length ≤ k) :
    (descSort sc out).take k = out := by
  rw [descSort_of_pairwise sc hs]
  exact List.take_of_length_le hl

theorem local_searchEmails_sorted_capped (rx : JsRegexOracle)
    (emailsTable : List EmailRow) (query : String) (topK : Nat)
    (filters : Option SearchFilters) (l : List KwResult)
    (h : LocalSQLiteStorage.searchEmails rx emailsTable query topK filters =
      Except.ok l) :
    List.Pairwise (fun a b : KwResult => b.score ≤ a.score) l ∧
    l.length ≤ max 1 topK := by
  unfold LocalSQLiteStorage.searchEmails at h
  dsimp only at h
  split at h
  · simp only [Except.ok.injEq] at h
    subst h
    exact ⟨List.Pairwise.nil, by simp⟩
  · split at h
    · cases h
    · simp only [Except.ok.injEq] at h
      subst h
      constructor
      · exact pairwise_take_descSort _ _ _
      · rw [List.length_take]
        exact min_le_left _ _

/-! ### C2: regex-engine faithfulness, ILIKE wildcards, searchEmails -/

/-- `litEngine` conforms to ECMAScript on literal patterns. -/
theorem litEngine_faithful : RxFaithful litEngine := by
  intro pat text h
  show (if litToken pat = true then
    Except.ok (countOccs pat.toList text.toList) else Except.error ()) = _
  rw [if_pos h]

theorem mapExcept_ok {α β : Type} (f : α → Except Unit β) (g : α → β)
    (l : List α) (h : ∀ a ∈ l, f a = Except.ok (g a)) :
    mapExcept f l = Except.ok (l.map g) := by
  induction l with
  | nil => rfl
  | cons a as ih =>
    unfold mapExcept
    rw [h a (List.mem_cons_self a as)]
    dsimp only
    rw [ih (fun x hx => h x (List.mem_cons_of_mem a hx))]
    rfl

/-- Against a conforming engine, the token loop on metacharacter-free tokens
never throws and totals the literal occurrence counts. -/
theorem scoreTokens_faithful (rx : JsRegexOracle) (hrx : RxFaithful rx)
    (lowerText : String) (ts : List String)
    (h : ∀ t ∈ ts, litToken (strLower t) = true) :
    scoreTokens rx lowerText ts =
      Except.ok ((ts.map
        (fun t => countOccs (strLower t).toList lowerText.toList)).sum) := by
  induction ts with
  | nil => rfl
  | cons t ts ih =>
    unfold scoreTokens
    rw [hrx (strLower t) lowerText (h t (List.mem_cons_self t ts))]
    dsimp only
    rw [ih (fun x hx => h x (List.mem_cons_of_mem t hx))]
    dsimp only
    rw [List.map_cons, List.sum_cons]

/-- Against a conforming engine, `scoreText` on metacharacter-free tokens is
exactly the literal occurrence score. -/
theorem scoreText_faithful (rx : JsRegexOracle) (hrx : RxFaithful rx)
    (text : String) (tokens : List String)
    (h : ∀ t ∈ tokens, litToken (strLower t) = true) :
    scoreText rx text tokens = Except.ok (literalScore text tokens) := by
  unfold scoreText literalScore
  by_cases hc : text = "" ∨ tokens = []
  · rw [if_pos hc, if_pos hc]
  · rw [if_neg hc, if_neg hc]
    exact scoreTokens_faithful rx hrx (strLower text) tokens h

theorem mem_allSuffixes (l x : List Char) :
    x ∈ allSuffixes l ↔ x <:+ l := by
  induction l with
  | nil =>
    simp only [allSuffixes, List.mem_singleton]
    exact ⟨fun h => h ▸ List.suffix_rfl, fun h => List.suffix_nil.mp h⟩
  | cons c ts ih =>
    simp only [allSuffixes, List.mem_cons, ih]
    exact (List.suffix_cons_iff).symm

/-- A leading `%` matches iff some suffix matches the rest of the pattern. -/
theorem likeMatch_percent_cons (ps text : List Char) :
    likeMatch ('%' :: ps) text = true ↔
      ∃ t, t <:+ text ∧ likeMatch ps t = true := by
  have hh : likeMatch ('%' :: ps) text =
      (allSuffixes text).any (fun t => likeMatch ps t) := rfl
  rw [hh, List.any_eq_true]
  constructor
  · rintro ⟨t, ht, hm⟩
    exact ⟨t, (mem_allSuffixes text t).mp ht, hm⟩
  · rintro ⟨t, ht, hm⟩
    exact ⟨t, (mem_allSuffixes text t).mpr ht, hm⟩

theorem cons_prefix_iff_chars {a b : Char} {l₁ l₂ : List Char} :
    a :: l₁ <+: b :: l₂ ↔ a = b ∧ l₁ <+: l₂ := by
  constructor
  · rintro ⟨t, ht⟩
    rw [List.cons_append] at ht
    injection ht with h1 h2
    exact ⟨h1, ⟨t, h2⟩⟩
  · rintro ⟨h1, t, ht⟩
    exact ⟨t, by rw [List.cons_append, h1, ht]⟩

/-- A wildcard-free pattern followed by `%` matches exactly the texts it
begins. -/
theorem likeMatch_nowild_append (q : List Char)
    (hq : ∀ c ∈ q, ¬(c = '%' ∨ c = '_')) (text : List Char) :
    likeMatch (q ++ ['%']) text = true ↔ q <+: text := by
  induction q generalizing text with
  | nil =>
    simp only [List.nil_append]
    rw [likeMatch_percent_cons]
    constructor
    · intro _
      exact List.nil_prefix
    · intro _
      exact ⟨[], List.nil_suffix, rfl⟩
  | cons p q ih =>
    have hp := hq p (List.mem_cons_self p q)
    have hp1 : p ≠ '%' := fun h => hp (Or.inl h)
    have hp2 : p ≠ '_' := fun h => hp (Or.inr h)
    have hq2 : ∀ c ∈ q, ¬(c = '%' ∨ c = '_') :=
      fun c hc => hq c (List.mem_cons_of_mem p hc)
    cases text with
    | nil =>
      show likeMatch (p :: (q ++ ['%'])) [] = true ↔ p :: q <+: []
      unfold likeMatch
      rw [if_neg hp1]
      dsimp only
      constructor
      · intro h
        cases h
      · intro h
        exact absurd (List.prefix_nil.mp h) (by simp)
    | cons c ts =>
      show likeMatch (p :: (q ++ ['%'])) (c :: ts) = true ↔
        p :: q <+: c :: ts
      unfold likeMatch
      rw [if_neg hp1]
      dsimp only
      rw [Bool.and_eq_true, Bool.or_eq_true]
      constructor
      · rintro ⟨hpc, hm⟩
        rcases hpc with hpc | hpc
        · exact absurd (of_decide_eq_true hpc) hp2
        · exact cons_prefix_iff_chars.mpr
            ⟨of_decide_eq_true hpc, (ih hq2 ts).mp hm⟩
      · intro hpre
        rcases cons_prefix_iff_chars.mp hpre with ⟨hpc, hqt⟩
        exact ⟨Or.inr (decide_eq_true hpc), (ih hq2 ts).mpr hqt⟩

/-- When the (lower-cased) query contains no SQL wildcard, the
`ILIKE '%query%'` test is exactly the case-insensitive substring test. -/
theorem ilikeField_eq_containsCI (query field : String)
    (hq : ∀ c ∈ (strLower query).toList, ¬(c = '%' ∨ c = '_')) :
    ilikeField query field = containsCI field query := by
  have key : likeMatch ('%' :: ((strLower query).toList ++ ['%']))
      (strLower field).toList = true ↔
      (strLower query).toList <:+: (strLower field).toList := by
    rw [likeMatch_percent_cons]
    constructor
    · rintro ⟨t, hts, hm⟩
      obtain ⟨u, hu⟩ := (likeMatch_nowild_append _ hq t).mp hm
      obtain ⟨s, hs⟩ := hts
      exact ⟨s, u, by rw [List.append_assoc, hu, hs]⟩
    · rintro ⟨s, u, h⟩
      refine ⟨(strLower query).toList ++ u, ⟨s, ?_⟩, ?_⟩
      · rw [← List.append_assoc]
        exact h
      · exact (likeMatch_nowild_append _ hq _).mpr ⟨u, rfl⟩
  unfold ilikeField containsCI
  by_cases hin : (strLower query).toList <:+: (strLower field).toList
  · rw [key.mpr hin, decide_eq_true hin]
  · have h1 : likeMatch ('%' :: ((strLower query).toList ++ ['%']))
        (strLower field).toList = false := by
      cases hlm : likeMatch ('%' :: ((strLower query).toList ++ ['%']))
          (strLower field).toList with
      | false => rfl
      | true => exact absurd (key.mp hlm) hin
    rw [h1, decide_eq_false hin]

/-- Counterexample for C2: the query `"c++"` has the single token `"c++"`,
which the code compiles as `new RegExp("c++", 'gi')` — in ECMAScript this
throws a SyntaxError (a quantifier with nothing to repeat), recorded by
`cexEngine` — so `searchEmails` throws instead of returning the scored,
sorted list the claim describes, although the table holds a candidate row
that literally contains `c++`. -/
theorem C2_searchEmails_counterexample :
    DatabaseStorage.searchEmails cexEngine
        [⟨1, "abc++d", "kim", "2025-01-01", "body"⟩] "c++" 5 =
      Except.error () := rfl

/-- C2 (amended): against an engine conforming to ECMAScript on literal
patterns, and for a query all of whose lower-cased tokens are free of regex
metacharacters, `DatabaseStorage.searchEmails` never throws: a whitespace-only
query yields the empty list, and otherwise the result is exactly the
`ILIKE '%query%'` candidates over subject/body/sender/date (a single linear
scan capped at 100 rows, `%` and `_` in the query keeping their SQL wildcard
meaning), each scored by the total number of non-overlapping case-insensitive
occurrences of every token in `subject ++ " " ++ body`, zero scores dropped,
sorted by descending score and truncated to `max 1 topK` — so at most
`max 1 topK` results, in descending score order, all with positive score;
moreover, for a query free of SQL wildcards the candidate test is exactly a
case-insensitive substring scan of the four fields. -/
theorem C2_searchEmails_keyword_scan_amended
    (rx : JsRegexOracle) (hrx : RxFaithful rx)
    (emailsTable : List EmailRow) (query : String) (topK : Nat)
    (hlit : ∀ t ∈ tokenize query, litToken (strLower t) = true) :
    (tokenize query = [] →
      DatabaseStorage.searchEmails rx emailsTable query topK =
        Except.ok []) ∧
    (tokenize query ≠ [] →
      ∃ res, DatabaseStorage.searchEmails rx emailsTable query topK =
          Except.ok res ∧
        res = (descSort (fun r : KwResult => r.score)
          ((((emailsTable.filter (DatabaseStorage.ilikeAny query)).take
              100).map
            (fun e => DatabaseStorage.mkKwResult
              (literalScore (e.subject ++ " " ++ e.body)
                (tokenize query)) e)).filter
            (fun r : KwResult => 0 < r.score))).take (max 1 topK) ∧
        res.length ≤ max 1 topK ∧
        List.Pairwise (fun a b : KwResult => b.score ≤ a.score) res ∧
        ∀ r ∈ res, 0 < r.score) ∧
    ((∀ c ∈ (strLower query).toList, ¬(c = '%' ∨ c = '_')) →
      ∀ e, DatabaseStorage.ilikeAny query e =
        (containsCI e.subject query || containsCI e.body query ||
          containsCI e.sender query || containsCI e.date query)) := by
  refine ⟨?_, ?_, ?_⟩
  · intro htok
    unfold DatabaseStorage.searchEmails
    dsimp only
    rw [if_pos htok]
  · intro htok
    have hmap : mapExcept (fun e =>
        (scoreText rx (e.subject ++ " " ++ e.body) (tokenize query)).map
          (fun sc => DatabaseStorage.mkKwResult sc e))
        ((emailsTable.filter (DatabaseStorage.ilikeAny query)).take 100) =
        Except.ok
          (((emailsTable.filter (DatabaseStorage.ilikeAny query)).take
              100).map
            (fun e => DatabaseStorage.mkKwResult
              (literalScore (e.subject ++ " " ++ e.body)
                (tokenize query)) e)) := by
      refine mapExcept_ok _ _ _ (fun e he => ?_)
      rw [scoreText_faithful rx hrx _ _ hlit]
      rfl
    refine ⟨_, ?_, rfl, ?_, ?_, ?_⟩
    · unfold DatabaseStorage.searchEmails
      dsimp only
      rw [if_neg htok, hmap]
    · rw [List.length_take]
      exact min_le_left _ _
    · exact pairwise_take_descSort _ _ _
    · intro r hr
      have h1 := List.take_subset _ _ hr
      have h2 := (mem_descSort (fun r : KwResult => r.score) _ r).mp h1
      exact of_decide_eq_true ((List.mem_filter.mp h2).2)
  · intro hq e
    unfold DatabaseStorage.ilikeAny
    rw [ilikeField_eq_containsCI query e.subject hq,
      ilikeField_eq_containsCI query e.body hq,
      ilikeField_eq_containsCI query e.sender hq,
      ilikeField_eq_containsCI query e.date hq]

/-- Witness for C2 (amended): a conforming concrete engine, the literal
one-token query `"hello"`, and a one-row table on which the search succeeds
with sorted, capped, positive-score results. -/
theorem C2_searchEmails_keyword_scan_amended_witness :
    RxFaithful litEngine ∧
    (∀ t ∈ tokenize "hello", litToken (strLower t) = true) ∧
    ∃ res, DatabaseStorage.searchEmails litEngine
        [⟨1, "Hello world", "kim", "2025-01-01", "say hello"⟩] "hello" 3 =
      Except.ok res ∧
      res.length ≤ max 1 3 ∧
      List.Pairwise (fun a b : KwResult => b.score ≤ a.score) res ∧
      ∀ r ∈ res, 0 < r.score := by
  refine ⟨litEngine_faithful, by decide, ?_⟩
  obtain ⟨res, h1, _, h3, h4, h5⟩ :=
    (C2_searchEmails_keyword_scan_amended litEngine litEngine_faithful
      [⟨1, "Hello world", "kim", "2025-01-01", "say hello"⟩] "hello" 3
      (by decide)).2.1 (by decide)
  exact ⟨res, h1, h3, h4, h5⟩

/-- C10: in local SQLite mode, `searchEmailsBm25` is exactly the keyword
search `searchEmails` re-sorted by descending score and truncated to `topK`
(a keyword-search throw propagates unchanged) — for every `topK ≥ 1` it
returns the keyword search's outcome unchanged, so the BM25 formula is never
applied — and `searchEventsByKeyword` returns the empty list for every
keyword. -/
theorem C10_local_bm25_is_keyword_search (rx : JsRegexOracle)
    (emailsTable : List EmailRow) (query : String) (topK : Nat) :
    LocalSQLiteStorage.searchEmailsBm25 rx emailsTable query topK =
      (LocalSQLiteStorage.searchEmails rx emailsTable query topK none).map
        (fun results =>
          (descSort (fun r : KwResult => r.score) results).take topK) ∧
    (1 ≤ topK →
      LocalSQLiteStorage.searchEmailsBm25 rx emailsTable query topK =
        LocalSQLiteStorage.searchEmails rx emailsTable query topK none) ∧
    (∀ keyword, LocalSQLiteStorage.searchEventsByKeyword keyword = []) := by
  refine ⟨rfl, ?_, fun _ => rfl⟩
  intro hk
  have hmax : max 1 topK = topK := Nat.max_eq_right hk
  unfold LocalSQLiteStorage.searchEmailsBm25
  cases hse : LocalSQLiteStorage.searchEmails rx emailsTable query topK none with
  | error u => rfl
  | ok l =>
    have h := local_searchEmails_sorted_capped rx emailsTable query topK none l hse
    show Except.ok ((descSort (fun r : KwResult => r.score) l).take topK) =
      Except.ok l
    rw [resort_take_of_sorted _ _ _ h.1 (le_trans h.2 hmax.le)]

/-- Witness for C10: with `topK = 1` and a conforming engine, the local BM25
search coincides with the local keyword search on a concrete table. -/
theorem C10_local_bm25_is_keyword_search_witness :
    LocalSQLiteStorage.searchEmailsBm25 litEngine
        [⟨1, "hello", "kim", "2025", "world hello"⟩] "hello" 1 =
      LocalSQLiteStorage.searchEmails litEngine
        [⟨1, "hello", "kim", "2025", "world hello"⟩] "hello" 1 none :=
  (C10_local_bm25_is_keyword_search litEngine
    [⟨1, "hello", "kim", "2025", "world hello"⟩] "hello" 1).2.1 (by decide)

/-- C3: `searchRagChunks` scores every stored chunk by cosine similarity
against the query embedding and returns the `topK` highest in descending
order (the output is the `topK`-prefix of a descending-sorted permutation of
the full linear scan); `cosineSimilarity` is a total function returning 0 on
length mismatch or a zero norm and the normalized dot product otherwise. -/
theorem C3_searchRagChunks_topk_cosine (chunks : List RagChunk)
    (queryEmbedding : List ℝ) (topK : Nat) :
    (∃ L : List (RagChunk × ℝ),
      L.Perm (chunks.map (fun c => (c, cosineSimilarity queryEmbedding c.embedding))) ∧
      List.Pairwise (fun a b : RagChunk × ℝ => b.2 ≤ a.2) L ∧
      DatabaseStorage.searchRagChunks chunks queryEmbedding topK = L.take topK) ∧
    (DatabaseStorage.searchRagChunks chunks queryEmbedding topK).length =
      min topK chunks.length ∧
    (∀ p ∈ DatabaseStorage.searchRagChunks chunks queryEmbedding topK,
      p.1 ∈ chunks ∧ p.2 = cosineSimilarity queryEmbedding p.1.embedding) ∧
    List.Pairwise (fun a b : RagChunk × ℝ => b.2 ≤ a.2)
      (DatabaseStorage.searchRagChunks chunks queryEmbedding topK) ∧
    (∀ a b : List ℝ, a.length ≠ b.length → cosineSimilarity a b = 0) ∧
    (∀ a b : List ℝ,
      (a.map (fun x => x * x)).sum = 0 ∨ (b.map (fun x => x * x)).sum = 0 →
      cosineSimilarity a b = 0) ∧
    (∀ a b : List ℝ, a.length = b.length →
      (a.map (fun x => x * x)).sum ≠ 0 → (b.map (fun x => x * x)).sum ≠ 0 →
      cosineSimilarity a b = (List.zipWith (fun x y => x * y) a b).sum /
        (Real.sqrt ((a.map (fun x => x * x)).sum) *
          Real.sqrt ((b.map (fun x => x * x)).sum))) := by
  classical
  refine ⟨?_, ?_, ?_, ?_, ?_, ?_, ?_⟩
  · exact ⟨descSort Prod.snd
      (chunks.map (fun c => (c, cosineSimilarity queryEmbedding c.embedding))),
      descSort_perm _ _, pairwise_descSort _ _, rfl⟩
  · unfold DatabaseStorage.searchRagChunks
    rw [List.length_take, length_descSort, List.length_map]
  · intro p hp
    have h1 : p ∈ descSort (Prod.snd (α := RagChunk) (β := ℝ))
        (chunks.map (fun c => (c, cosineSimilarity queryEmbedding c.embedding))) :=
      (List.take_sublist _ _).subset hp
    have h2 := (mem_descSort _ _ _).mp h1
    obtain ⟨c, hc, hpc⟩ := List.mem_map.mp h2
    refine ⟨?_, ?_⟩
    · rw [← hpc]; exact hc
    · rw [← hpc]
  · exact pairwise_take_descSort _ _ _
  · intro a b h
    unfold cosineSimilarity
    rw [if_pos h]
  · intro a b h
    unfold cosineSimilarity
    by_cases hlen : a.length ≠ b.length
    · rw [if_pos hlen]
    · rw [if_neg hlen]
      simp only []
      rw [if_pos h]
  · intro a b hlen hna hnb
    unfold cosineSimilarity
    rw [if_neg (by simp [hlen])]
    simp only []
    rw [if_neg (by push_neg; exact ⟨hna, hnb⟩)]

/-- Witness for C3: concrete activations of the three `cosineSimilarity`
branches (length mismatch, zero norm, and the normalized dot product). -/
theorem C3_searchRagChunks_topk_cosine_witness :
    cosineSimilarity [(1 : ℝ)] [1, 2] = 0 ∧
    cosineSimilarity [(0 : ℝ)] [1] = 0 ∧
    cosineSimilarity [(2 : ℝ)] [3] =
      (List.zipWith (fun x y => x * y) [(2 : ℝ)] [3]).sum /
        (Real.sqrt (([(2 : ℝ)].map (fun x => x * x)).sum) *
          Real.sqrt (([(3 : ℝ)].map (fun x => x * x)).sum)) := by
  have h := C3_searchRagChunks_topk_cosine [] [] 0
  refine ⟨h.2.2.2.2.1 [1] [1, 2] (by simp), ?_, ?_⟩
  · exact h.2.2.2.2.2.1 [0] [1] (by simp)
  · exact h.2.2.2.2.2.2 [2] [3] (by simp) (by norm_num) (by norm_num)

/-- C9: with a blank message, `chatRequestSchema`'s refinement passes exactly
when `filters.sender`, `filters.subject` or `filters.body` is non-blank; the
`startDate` and `endDate` filters are never consulted (the check reads the
nonexistent `filters.date`), so the POST /api/search validation step answers
400 for a request supplying only date-range filters. -/
theorem C9_search_validation_ignores_dates (message : Option String)
    (f : SearchFilters) (hblank : strTrim (message.getD "") = "") :
    (chatRequestPasses message (some f) =
      (hasText f.sender || hasText f.subject || hasText f.body)) ∧
    (∀ sd ed : Option String,
      chatRequestPasses message (some { f with startDate := sd, endDate := ed }) =
        chatRequestPasses message (some f)) ∧
    (∀ rest : Nat × Option String,
      searchRouteValidation message (some f) rest =
        if hasText f.sender || hasText f.subject || hasText f.body then rest
        else (400, some "검색어 또는 필터를 입력하세요")) := by
  have hmsg : hasText message = false := by
    simp [hasText, hblank]
  have hnone : hasText none = false := by decide
  have hpass : chatRequestPasses message (some f) =
      (hasText f.sender || hasText f.subject || hasText f.body) := by
    simp only [chatRequestPasses, filtersDateField, hmsg, hnone, List.any_cons,
      List.any_nil, Bool.false_or, Bool.or_false, Bool.or_assoc]
  refine ⟨hpass, ?_, ?_⟩
  · intro sd ed
    simp [chatRequestPasses, hmsg, filtersDateField]
  · intro rest
    rw [searchRouteValidation, hpass]

/-- Witness for C9: a blank-message request carrying only a `startDate`
filter is answered 400 even though the schema defines that field. -/
theorem C9_search_validation_ignores_dates_witness :
    searchRouteValidation (some " ") (some { startDate := some "2025-01-01" })
        (200, none) =
      (400, some "검색어 또는 필터를 입력하세요") := by
  have h := (C9_search_validation_ignores_dates (some " ")
    { startDate := some "2025-01-01" } (by decide)).2.2 (200, none)
  rw [h]
  decide

theorem classifyEmail_fields (jparse : String → Option JObj) (obj : JObj)
    (response : String) (jsonStr : String)
    (hb : extractBraced response = some jsonStr) (hp : jparse jsonStr = some obj) :
    classifyEmail jparse (.ok response) =
      ⟨(match jGet obj "classification" with
        | some (.jstr v) => if v ∈ allowedClassifications then v else "task"
        | _ => "task"),
       (match jGet obj "confidence" with
        | some (.jstr v) =>
          if v = "high" ∨ v = "medium" ∨ v = "low" then v else "medium"
        | _ => "medium")⟩ := by
  simp only [classifyEmail, hb, hp]

/-- C8: `classifyEmail` never rejects — its classification is always one of
task/meeting/approval/notice and its confidence one of high/medium/low; a
failed LLM call or a reply without a parseable JSON object yields
`task`/`low`, and parsed values outside the allowed sets are replaced by
`task` and/or `medium`. -/
theorem C8_classifyEmail_never_rejects (jparse : String → Option JObj)
    (llm : Except Unit String) :
    (classifyEmail jparse llm).classification ∈ allowedClassifications ∧
    (classifyEmail jparse llm).confidence ∈ ["high", "medium", "low"] ∧
    (∀ u : Unit, llm = .error u → classifyEmail jparse llm = ⟨"task", "low"⟩) ∧
    (∀ response, llm = .ok response → extractBraced response = none →
      classifyEmail jparse llm = ⟨"task", "low"⟩) ∧
    (∀ response jsonStr, llm = .ok response → extractBraced response = some jsonStr →
      jparse jsonStr = none → classifyEmail jparse llm = ⟨"task", "low"⟩) ∧
    (∀ response jsonStr obj, llm = .ok response →
      extractBraced response = some jsonStr → jparse jsonStr = some obj →
      (∀ v, jGet obj "classification" = some (JVal.jstr v) →
        v ∉ allowedClassifications →
        (classifyEmail jparse llm).classification = "task") ∧
      (∀ v, jGet obj "confidence" = some (JVal.jstr v) →
        ¬(v = "high" ∨ v = "medium" ∨ v = "low") →
        (classifyEmail jparse llm).confidence = "medium")) := by
  classical
  refine ⟨?_, ?_, ?_, ?_, ?_, ?_⟩
  · cases llm with
    | error u => simp [classifyEmail, allowedClassifications]
    | ok response =>
      cases hb : extractBraced response with
      | none => simp [classifyEmail, hb, allowedClassifications]
      | some jsonStr =>
        cases hp : jparse jsonStr with
        | none => simp [classifyEmail, hb, hp, allowedClassifications]
        | some obj =>
          rw [classifyEmail_fields jparse obj response jsonStr hb hp]
          dsimp only
          cases hg : jGet obj "classification" with
          | none => decide
          | some jv =>
            cases jv with
            | jother => decide
            | jstr v =>
              dsimp only
              by_cases hv : v ∈ allowedClassifications
              · rw [if_pos hv]
                exact hv
              · rw [if_neg hv]
                decide
  · cases llm with
    | error u => simp [classifyEmail]
    | ok response =>
      cases hb : extractBraced response with
      | none => simp [classifyEmail, hb]
      | some jsonStr =>
        cases hp : jparse jsonStr with
        | none => simp [classifyEmail, hb, hp]
        | some obj =>
          rw [classifyEmail_fields jparse obj response jsonStr hb hp]
          dsimp only
          cases hg : jGet obj "confidence" with
          | none => decide
          | some jv =>
            cases jv with
            | jother => decide
            | jstr v =>
              dsimp only
              by_cases hv : v = "high" ∨ v = "medium" ∨ v = "low"
              · rw [if_pos hv]
                rcases hv with h | h | h <;> simp [h]
              · rw [if_neg hv]
                decide
  · intro u hu
    subst hu
    rfl
  · intro response hr hb
    subst hr
    simp [classifyEmail, hb]
  · intro response jsonStr hr hb hp
    subst hr
    simp [classifyEmail, hb, hp]
  · intro response jsonStr obj hr hb hp
    subst hr
    rw [classifyEmail_fields jparse obj response jsonStr hb hp]
    dsimp only
    constructor
    · intro v hg hv
      rw [hg]
      dsimp only
      rw [if_neg hv]
    · intro v hg hv
      rw [hg]
      dsimp only
      rw [if_neg hv]

/-- Witness for C8: a failed LLM call, a reply with no JSON object, and a
parsed object with out-of-range values all resolve to allowed labels. -/
theorem C8_classifyEmail_never_rejects_witness :
    classifyEmail (fun _ => none) (.error ()) = ⟨"task", "low"⟩ ∧
    classifyEmail (fun _ => none) (.ok "no json here") = ⟨"task", "low"⟩ ∧
    (classifyEmail
      (fun _ => some [("classification", JVal.jstr "reference"),
        ("confidence", JVal.jstr "huge")])
      (.ok "x\x7by\x7dz")).classification = "task" ∧
    (classifyEmail
      (fun _ => some [("classification", JVal.jstr "reference"),
        ("confidence", JVal.jstr "huge")])
      (.ok "x\x7by\x7dz")).confidence = "medium" := by
  refine ⟨?_, ?_, ?_, ?_⟩
  · exact (C8_classifyEmail_never_rejects (fun _ => none) (.error ())).2.2.1 () rfl
  · exact (C8_classifyEmail_never_rejects (fun _ => none)
      (.ok "no json here")).2.2.2.1 "no json here" rfl (by decide)
  · exact ((C8_classifyEmail_never_rejects
      (fun _ => some [("classification", JVal.jstr "reference"),
        ("confidence", JVal.jstr "huge")])
      (.ok "x\x7by\x7dz")).2.2.2.2.2 "x\x7by\x7dz" "\x7by\x7d"
      [("classification", JVal.jstr "reference"), ("confidence", JVal.jstr "huge")]
      rfl (by decide) rfl).1 "reference" (by decide) (by decide)
  · exact ((C8_classifyEmail_never_rejects
      (fun _ => some [("classification", JVal.jstr "reference"),
        ("confidence", JVal.jstr "huge")])
      (.ok "x\x7by\x7dz")).2.2.2.2.2 "x\x7by\x7dz" "\x7by\x7d"
      [("classification", JVal.jstr "reference"), ("confidence", JVal.jstr "huge")]
      rfl (by decide) rfl).2 "huge" (by decide) (by decide)

/-- Counterexample for C5: a successful library parse in which every email
failed to parse (here: one per-email error recorded by `processFolder`)
yields empty `emails` together with a non-empty error list, although the
library did not throw and the fallback was never consulted — refuting the
claim that this combination occurs only when the library throws and the
fallback extracts nothing. -/
theorem C5_parsePSTFile_counterexample :
    (parsePSTFile (.ok ([], ["Error parsing email: Unknown error"]))
      ([], [])).emails = [] ∧
    (parsePSTFile (.ok ([], ["Error parsing email: Unknown error"]))
      ([], [])).errors ≠ [] := by
  exact ⟨rfl, by decide⟩

/-- C5 amended: `parsePSTFile` first attempts the library parse; the fallback
is consulted only when the library throws (on a successful parse the result
is the library's emails and accumulated errors, whatever the fallback would
do); whenever the fallback extracts at least one email its result is returned
in place of the library failure; when the library throws and the fallback
extracts nothing, the result has empty emails and a non-empty error list
headed by the classified library error and followed by the fallback errors.
Unlike the original claim, a successful library parse can itself yield empty
emails with non-empty errors (per-email parse failures). -/
theorem C5_parsePSTFile_fallback_amended (es : List ParsedEmail)
    (errs : List String) (msg : String) (fb : ReadpstOutcome) :
    (∀ fb' : ReadpstOutcome,
      parsePSTFile (.ok (es, errs)) fb' = parsePSTFile (.ok (es, errs)) fb) ∧
    parsePSTFile (.ok (es, errs)) fb =
      ⟨es, es.length, errs.length, errs⟩ ∧
    (fb.1 ≠ [] → parsePSTFile (.error msg) fb = parseWithReadpst fb) ∧
    (fb.1 = [] →
      parsePSTFile (.error msg) fb =
        ⟨[], 0, (pstErrorMessage msg :: fb.2).length,
          pstErrorMessage msg :: fb.2⟩ ∧
      (parsePSTFile (.error msg) fb).emails = [] ∧
      (parsePSTFile (.error msg) fb).errors ≠ []) := by
  refine ⟨fun _ => rfl, rfl, ?_, ?_⟩
  · intro hne
    unfold parsePSTFile
    dsimp only
    have : (parseWithReadpst fb).emails.length > 0 := by
      simp only [parseWithReadpst]
      exact List.length_pos.mpr hne
    rw [if_pos this]
  · intro hempty
    have hlen : ¬((parseWithReadpst fb).emails.length > 0) := by
      simp [parseWithReadpst, hempty]
    constructor
    · unfold parsePSTFile
      dsimp only
      rw [if_neg hlen]
      simp [parseWithReadpst]
    · constructor
      · unfold parsePSTFile
        dsimp only
        rw [if_neg hlen]
      · unfold parsePSTFile
        dsimp only
        rw [if_neg hlen]
        simp [parseWithReadpst]

/-- Witness for C5 (amended): with a throwing library and a fallback that
extracted one email, the fallback result is returned; with an empty fallback
the classified error heads the error list. -/
theorem C5_parsePSTFile_fallback_amended_witness :
    parsePSTFile (.error "oops") ([⟨"s", "f", "d", "b"⟩], ["e1"]) =
      parseWithReadpst ([⟨"s", "f", "d", "b"⟩], ["e1"]) ∧
    parsePSTFile (.error "oops") ([], ["e1"]) =
      ⟨[], 0, 2, ["PST 파일 열기 실패: oops", "e1"]⟩ := by
  constructor
  · exact (C5_parsePSTFile_fallback_amended [] [] "oops"
      ([⟨"s", "f", "d", "b"⟩], ["e1"])).2.2.1 (by decide)
  · have h := ((C5_parsePSTFile_fallback_amended [] [] "oops"
      ([], ["e1"])).2.2.2 rfl).1
    rw [h]
    decide

/-- Counterexample for C7: an exception thrown inside the GET
/api/ollama/status handler is answered with HTTP 200 (body
`connected: false`), not with an HTTP 500 error as the claim states for
every route. -/
theorem C7_route_error_mapping_counterexample :
    (handleRoute Route.ollamaStatus (Outcome.thrown ⟨false, some "boom"⟩)).status
        = 200 ∧
    (handleRoute Route.ollamaStatus (Outcome.thrown ⟨false, some "boom"⟩)).status
        ≠ 500 := by
  decide

/-- C7 amended: no route lets an exception propagate — each handler catches
and answers; a thrown exception is mapped to HTTP 500 with an error message
on every route except GET /api/ollama/status (which answers 200 with
`connected: false`) and except POST /api/search when the exception is a
`ZodError` (400); a request body failing schema validation is answered with
HTTP 400 and a non-empty localized message. -/
theorem C7_route_error_mapping_amended (r : Route) (o : Outcome)
    (hwf : OutcomeWF r o) :
    (∀ t, o = .thrown t →
      (r = .ollamaStatus → handleRoute r o = ⟨200, none⟩) ∧
      (r = .search → t.isZod = true →
        handleRoute r o = ⟨400, some "잘못된 요청 형식입니다."⟩) ∧
      (r ≠ .ollamaStatus → (r = .search → t.isZod = false) →
        (handleRoute r o).status = 500 ∧ (handleRoute r o).errMsg ≠ none)) ∧
    (∀ msgs, o = .invalid msgs →
      (handleRoute r o).status = 400 ∧
      (handleRoute r o).errMsg = some (joinedOrDefault msgs) ∧
      joinedOrDefault msgs ≠ "") ∧
    (∀ resp, o = .completes resp → handleRoute r o = resp) := by
  refine ⟨?_, ?_, ?_⟩
  · intro t hto
    subst hto
    have hping : r ≠ Route.ping := hwf
    refine ⟨?_, ?_, ?_⟩
    · intro hr
      subst hr
      rfl
    · intro hr hz
      subst hr
      simp [handleRoute, catchResponse, hz]
    · intro hos hsz
      cases r with
      | ping => exact absurd rfl hping
      | ollamaStatus => exact absurd rfl hos
      | search =>
        simp [handleRoute, catchResponse, hsz rfl]
      | stats => exact ⟨rfl, by simp [handleRoute, catchResponse]⟩
      | importRoute => exact ⟨rfl, by simp [handleRoute, catchResponse]⟩
      | conversations => exact ⟨rfl, by simp [handleRoute, catchResponse]⟩
      | messages => exact ⟨rfl, by simp [handleRoute, catchResponse]⟩
      | aiChat => exact ⟨rfl, by simp [handleRoute, catchResponse]⟩
      | draftReply => exact ⟨rfl, by simp [handleRoute, catchResponse]⟩
      | classificationStats => exact ⟨rfl, by simp [handleRoute, catchResponse]⟩
      | reprocess => exact ⟨rfl, by simp [handleRoute, catchResponse]⟩
      | eventsExtract => exact ⟨rfl, by simp [handleRoute, catchResponse]⟩
      | events => exact ⟨rfl, by simp [handleRoute, catchResponse]⟩
      | emails => exact ⟨rfl, by simp [handleRoute, catchResponse]⟩
      | classifyOne => exact ⟨rfl, by simp [handleRoute, catchResponse]⟩
      | settingsGet => exact ⟨rfl, by simp [handleRoute, catchResponse]⟩
      | settingsPost => exact ⟨rfl, by simp [handleRoute, catchResponse]⟩
      | processUnprocessed => exact ⟨rfl, by simp [handleRoute, catchResponse]⟩
  · intro msgs ho
    subst ho
    refine ⟨rfl, rfl, ?_⟩
    unfold joinedOrDefault
    by_cases hj : String.intercalate ", " msgs = ""
    · rw [if_pos hj]
      decide
    · rw [if_neg hj]
      exact hj
  · intro resp hr
    subst hr
    rfl

/-- Witness for C7 (amended): a throwing /api/stats body answers 500 with a
message, and a schema failure on /api/search answers 400. -/
theorem C7_route_error_mapping_amended_witness :
    (handleRoute Route.stats (Outcome.thrown ⟨false, none⟩)).status = 500 ∧
    (handleRoute Route.search (Outcome.invalid ["검색어 또는 필터를 입력하세요"])).status
      = 400 := by
  constructor
  · exact (((C7_route_error_mapping_amended Route.stats
      (Outcome.thrown ⟨false, none⟩) (fun h => Route.noConfusion h)).1 ⟨false, none⟩ rfl).2.2
      (by decide) (by decide)).1
  · exact ((C7_route_error_mapping_amended Route.search
      (Outcome.invalid ["검색어 또는 필터를 입력하세요"]) rfl).2.1
      ["검색어 또는 필터를 입력하세요"] rfl).1

theorem StorePrefix.c6refl (s : Store) : StorePrefix s s :=
  ⟨List.prefix_refl _, List.prefix_refl _, List.prefix_refl _, List.prefix_refl _⟩

theorem StorePrefix.c6trans {s t u : Store} (h1 : StorePrefix s t)
    (h2 : StorePrefix t u) : StorePrefix s u :=
  ⟨h1.1.trans h2.1, h1.2.1.trans h2.2.1, h1.2.2.1.trans h2.2.2.1,
    h1.2.2.2.trans h2.2.2.2⟩

theorem importStep_preserves (o : AiOracle) (e : EmailRow) (s : Store) :
    StorePrefix s (importStep o e s).1 := by
  unfold importStep
  cases o.classify e.id with
  | error u => exact StorePrefix.c6refl s
  | ok cls =>
    cases o.extractEvents e.id with
    | error u =>
      exact ⟨List.prefix_append _ _, List.prefix_refl _, List.prefix_refl _,
        List.prefix_refl _⟩
    | ok evs =>
      cases o.embed e.id with
      | error u =>
        exact ⟨List.prefix_append _ _, List.prefix_append _ _,
          List.prefix_refl _, List.prefix_refl _⟩
      | ok chs =>
        dsimp only
        split
        · exact ⟨List.prefix_append _ _, List.prefix_append _ _,
            List.prefix_append _ _, List.prefix_append _ _⟩
        · exact ⟨List.prefix_append _ _, List.prefix_append _ _,
            List.prefix_refl _, List.prefix_append _ _⟩

theorem reprocessClassifyStage_preserves (o : AiOracle) (e : EmailRowFull)
    (s s1 : Store) (h : reprocessClassifyStage o e s = .ok s1) :
    StorePrefix s s1 := by
  unfold reprocessClassifyStage at h
  cases hcl : e.classification with
  | some c =>
    rw [hcl] at h
    cases h
    exact StorePrefix.c6refl s
  | none =>
    rw [hcl] at h
    cases hoc : o.classify e.row.id with
    | error u => rw [hoc] at h; cases h
    | ok cls =>
      rw [hoc] at h
      cases h
      exact ⟨List.prefix_append _ _, List.prefix_refl _, List.prefix_refl _,
        List.prefix_refl _⟩

theorem reprocessEventsStage_preserves (o : AiOracle) (e : EmailRowFull)
    (s1 s2 : Store) (h : reprocessEventsStage o e s1 = .ok s2) :
    StorePrefix s1 s2 := by
  unfold reprocessEventsStage at h
  split at h
  · cases hoe : o.extractEvents e.row.id with
    | error u => rw [hoe] at h; cases h
    | ok evs =>
      rw [hoe] at h
      cases h
      exact ⟨List.prefix_refl _, List.prefix_append _ _, List.prefix_refl _,
        List.prefix_refl _⟩
  · cases h
    exact StorePrefix.c6refl s1

theorem reprocessChunksStage_preserves (o : AiOracle) (e : EmailRowFull)
    (s2 s3 : Store) (h : reprocessChunksStage o e s2 = .ok s3) :
    StorePrefix s2 s3 := by
  unfold reprocessChunksStage at h
  split at h
  · cases hoe : o.embed e.row.id with
    | error u => rw [hoe] at h; cases h
    | ok chs =>
      rw [hoe] at h
      cases h
      split
      · exact ⟨List.prefix_refl _, List.prefix_refl _, List.prefix_append _ _,
          List.prefix_refl _⟩
      · exact StorePrefix.c6refl s2
  · cases h
    exact StorePrefix.c6refl s2

theorem reprocessStep_preserves (o : AiOracle) (e : EmailRowFull) (s : Store) :
    StorePrefix s (reprocessStep o e s).1 := by
  unfold reprocessStep
  cases h1 : reprocessClassifyStage o e s with
  | error u => exact StorePrefix.c6refl s
  | ok s1 =>
    dsimp only
    have p1 := reprocessClassifyStage_preserves o e s s1 h1
    cases h2 : reprocessEventsStage o e s1 with
    | error u => exact p1
    | ok s2 =>
      dsimp only
      have p2 := reprocessEventsStage_preserves o e s1 s2 h2
      cases h3 : reprocessChunksStage o e s2 with
      | error u => exact p1.c6trans p2
      | ok s3 =>
        dsimp only
        have p3 := reprocessChunksStage_preserves o e s2 s3 h3
        refine (p1.c6trans (p2.c6trans p3)).c6trans ?_
        exact ⟨List.prefix_refl _, List.prefix_refl _, List.prefix_refl _,
          List.prefix_append _ _⟩

theorem runImportLoop_trace (o : AiOracle) (emails : List EmailRow) (s : Store) :
    (runImportLoop o emails s).2.map Prod.fst = emails.map (·.id) := by
  induction emails generalizing s with
  | nil => rfl
  | cons e rest ih =>
    unfold runImportLoop
    dsimp only
    rw [List.map_cons, List.map_cons, ih]

theorem runImportLoop_preserves (o : AiOracle) (emails : List EmailRow) (s : Store) :
    StorePrefix s (runImportLoop o emails s).1 := by
  induction emails generalizing s with
  | nil => exact StorePrefix.c6refl s
  | cons e rest ih =>
    unfold runImportLoop
    dsimp only
    exact (importStep_preserves o e s).c6trans (ih _)

theorem runReprocessLoop_trace (o : AiOracle) (emailsF : List EmailRowFull)
    (s : Store) :
    (runReprocessLoop o emailsF s).2.map Prod.fst = emailsF.map (·.row.id) := by
  induction emailsF generalizing s with
  | nil => rfl
  | cons e rest ih =>
    unfold runReprocessLoop
    dsimp only
    rw [List.map_cons, List.map_cons, ih]

theorem runReprocessLoop_preserves (o : AiOracle) (emailsF : List EmailRowFull)
    (s : Store) :
    StorePrefix s (runReprocessLoop o emailsF s).1 := by
  induction emailsF generalizing s with
  | nil => exact StorePrefix.c6refl s
  | cons e rest ih =>
    unfold runReprocessLoop
    dsimp only
    exact (reprocessStep_preserves o e s).c6trans (ih _)

/-- C6: in both per-email processing loops a failure of one of the AI calls
only flags that email and abandons its remaining steps; the loop still
processes every email exactly once in order (the trace lists each input email
once, so a failed email is never retried), and everything stored before —
including by earlier emails of the same run — survives as a prefix of the
append-only stores. -/
theorem C6_processing_loops_skip_and_continue (o : AiOracle)
    (emails : List EmailRow) (emailsF : List EmailRowFull) (s : Store) :
    (runImportLoop o emails s).2.map Prod.fst = emails.map (·.id) ∧
    StorePrefix s (runImportLoop o emails s).1 ∧
    (∀ (e : EmailRow) (s' : Store), o.classify e.id = .error () →
      importStep o e s' = (s', true)) ∧
    (∀ (e : EmailRow) (s' : Store) (cls : ClassificationResult),
      o.classify e.id = .ok cls → o.extractEvents e.id = .error () →
      importStep o e s' =
        ({ s' with classifications := s'.classifications ++ [(e.id, cls)] }, true)) ∧
    (runReprocessLoop o emailsF s).2.map Prod.fst = emailsF.map (·.row.id) ∧
    StorePrefix s (runReprocessLoop o emailsF s).1 ∧
    (∀ (e : EmailRowFull) (s' : Store), e.classification = none →
      o.classify e.row.id = .error () → reprocessStep o e s' = (s', true)) := by
  refine ⟨runImportLoop_trace o emails s, runImportLoop_preserves o emails s,
    ?_, ?_, runReprocessLoop_trace o emailsF s,
    runReprocessLoop_preserves o emailsF s, ?_⟩
  · intro e s' h
    unfold importStep
    rw [h]
  · intro e s' cls hc he
    unfold importStep
    rw [hc, he]
  · intro e s' hcl hoc
    unfold reprocessStep reprocessClassifyStage
    rw [hcl, hoc]

/-- Witness for C6: with an oracle whose classification always throws, a
concrete email is flagged and the store is left untouched, while the loop
still visits both emails of a concrete run. -/
theorem C6_processing_loops_skip_and_continue_witness :
    importStep ⟨fun _ => .error (), fun _ => .error (), fun _ => .error ()⟩
        ⟨1, "a", "b", "c", "d"⟩ ⟨[], [], [], []⟩ = (⟨[], [], [], []⟩, true) ∧
    (runImportLoop ⟨fun _ => .error (), fun _ => .error (), fun _ => .error ()⟩
        [⟨1, "a", "b", "c", "d"⟩, ⟨2, "e", "f", "g", "h"⟩]
        ⟨[], [], [], []⟩).2.map Prod.fst = [1, 2] := by
  constructor
  · exact (C6_processing_loops_skip_and_continue
      ⟨fun _ => .error (), fun _ => .error (), fun _ => .error ()⟩ [] []
      ⟨[], [], [], []⟩).2.2.1 ⟨1, "a", "b", "c", "d"⟩ ⟨[], [], [], []⟩ rfl
  · exact (C6_processing_loops_skip_and_continue
      ⟨fun _ => .error (), fun _ => .error (), fun _ => .error ()⟩
      [⟨1, "a", "b", "c", "d"⟩, ⟨2, "e", "f", "g", "h"⟩] []
      ⟨[], [], [], []⟩).1

theorem vecScanStep_firstAbove (qt : List String) (s : VecScanState)
    (r : RagChunk × ℝ) : (vecScanStep qt s r).firstAbove = s.firstAbove := by
  unfold vecScanStep
  split
  · split <;> rfl
  · next h1 =>
    split
    · next h2 => exact absurd h2.2 h1
    · rfl

theorem vecScanStep_maxSim (qt : List String) (s : VecScanState)
    (r : RagChunk × ℝ) : (vecScanStep qt s r).maxSim = max s.maxSim r.2 := by
  unfold vecScanStep
  split
  · split <;> rfl
  · split <;> rfl

theorem vecScanStep_vecs (qt : List String) (s : VecScanState)
    (r : RagChunk × ℝ) :
    (vecScanStep qt s r).vecs =
      if vecPass qt r then s.vecs ++ [(r.1.content, r.2)] else s.vecs := by
  unfold vecScanStep vecPass
  split
  · next h1 =>
    split
    · next h2 =>
      have ht : hasTokenMatch qt r.1.content = false :=
        eq_false_of_ne_true h2.1
      have hd : decide ((0.75 : ℝ) ≤ r.2) = false :=
        decide_eq_false (not_le.mpr h2.2)
      simp [ht, hd]
    · next h2 =>
      rw [Classical.not_and_iff_or_not_not, not_not, not_lt] at h2
      rcases h2 with h | h
      · simp [decide_eq_true h1, h]
      · simp [decide_eq_true h1, decide_eq_true h]
  · next h1 =>
    have hd : decide ((0.50 : ℝ) ≤ r.2) = false := decide_eq_false h1
    split
    · next h2 => exact absurd h2.2 h1
    · simp [hd]

theorem vecScan_foldl_firstAbove (qt : List String) (rs : List (RagChunk × ℝ)) :
    ∀ s : VecScanState, (rs.foldl (vecScanStep qt) s).firstAbove = s.firstAbove := by
  induction rs with
  | nil => intro s; rfl
  | cons r rest ih =>
    intro s
    rw [List.foldl_cons, ih, vecScanStep_firstAbove]

theorem vecScan_firstAbove (qt : List String) (rs : List (RagChunk × ℝ)) :
    (vecScan qt rs).firstAbove = none :=
  vecScan_foldl_firstAbove qt rs ⟨0, [], none⟩

theorem vecScan_foldl_vecs (qt : List String) (rs : List (RagChunk × ℝ)) :
    ∀ s : VecScanState, (rs.foldl (vecScanStep qt) s).vecs =
      s.vecs ++ (rs.filter (vecPass qt)).map (fun r => (r.1.content, r.2)) := by
  induction rs with
  | nil => intro s; simp
  | cons r rest ih =>
    intro s
    rw [List.foldl_cons, ih, vecScanStep_vecs]
    by_cases hp : vecPass qt r = true
    · rw [if_pos hp, List.filter_cons_of_pos hp]
      simp
    · rw [if_neg hp, List.filter_cons_of_neg hp]

theorem vecScan_vecs (qt : List String) (rs : List (RagChunk × ℝ)) :
    (vecScan qt rs).vecs =
      (rs.filter (vecPass qt)).map (fun r => (r.1.content, r.2)) := by
  rw [vecScan, vecScan_foldl_vecs]
  rfl

theorem chatVectorResults_eq_vecs (qt : List String) (rs : List (RagChunk × ℝ)) :
    chatVectorResults qt rs = (vecScan qt rs).vecs := by
  unfold chatVectorResults
  dsimp only
  rw [vecScan_firstAbove]
  by_cases h : (vecScan qt rs).vecs.isEmpty = true
  · rw [if_pos h]
    exact (List.isEmpty_iff.mp h).symm
  · rw [if_neg h]

theorem chatVectorResults_filter (qt : List String) (rs : List (RagChunk × ℝ)) :
    chatVectorResults qt rs =
      (rs.filter (vecPass qt)).map (fun r => (r.1.content, r.2)) := by
  rw [chatVectorResults_eq_vecs, vecScan_vecs]

theorem vecScan_foldl_maxSim_le (qt : List String) (rs : List (RagChunk × ℝ)) :
    ∀ s : VecScanState, s.maxSim ≤ (rs.foldl (vecScanStep qt) s).maxSim := by
  induction rs with
  | nil => intro s; exact le_refl _
  | cons r rest ih =>
    intro s
    rw [List.foldl_cons]
    refine le_trans ?_ (ih _)
    rw [vecScanStep_maxSim]
    exact le_max_left _ _

theorem vecScan_maxSim_ge (qt : List String) (rs : List (RagChunk × ℝ))
    (r : RagChunk × ℝ) (hr : r ∈ rs) :
    ∀ s : VecScanState, r.2 ≤ (rs.foldl (vecScanStep qt) s).maxSim := by
  induction rs with
  | nil => cases hr
  | cons a rest ih =>
    intro s
    rw [List.foldl_cons]
    rcases List.mem_cons.mp hr with h | h
    · refine le_trans ?_ (vecScan_foldl_maxSim_le qt rest _)
      rw [vecScanStep_maxSim, h]
      exact le_max_right _ _
    · exact ih h _

theorem chatNeedBm25_iff_empty (qt : List String) (rs : List (RagChunk × ℝ)) :
    chatNeedBm25 qt rs = (chatVectorResults qt rs).isEmpty := by
  unfold chatNeedBm25
  by_cases h : (chatVectorResults qt rs).isEmpty = true
  · simp [h]
  · have hne : chatVectorResults qt rs ≠ [] := by
      simpa [List.isEmpty_iff] using h
    obtain ⟨v, hv⟩ := List.exists_mem_of_ne_nil _ hne
    rw [chatVectorResults_filter] at hv
    obtain ⟨r, hrmem, hrv⟩ := List.mem_map.mp hv
    have hpass := (List.mem_filter.mp hrmem).2
    have hhalf : (0.50 : ℝ) ≤ r.2 := by
      have := (Bool.and_eq_true _ _).mp hpass
      exact of_decide_eq_true this.1
    have hmax : (0.50 : ℝ) ≤ (vecScan qt rs).maxSim := by
      refine le_trans hhalf ?_
      exact vecScan_maxSim_ge qt rs r (List.mem_filter.mp hrmem).1 _
    have hlt : decide ((vecScan qt rs).maxSim < 0.50) = false :=
      decide_eq_false (not_lt.mpr hmax)
    simp [h, hlt]

theorem mergeStep_cases (st : List String × List CtxItem) (x : CtxItem) :
    mergeStep st x = st ∨
      mergeStep st x = (st.1 ++ [ctxKey x], st.2 ++ [x]) := by
  unfold mergeStep
  split
  · exact Or.inl rfl
  · split
    · exact Or.inl rfl
    · exact Or.inr rfl

theorem mergeFold_len_le (l : List CtxItem) :
    ∀ st : List String × List CtxItem, st.2.length ≤ 3 →
      ((l.foldl mergeStep st).2.length ≤ 3) := by
  induction l with
  | nil => intro st h; exact h
  | cons x rest ih =>
    intro st h
    rw [List.foldl_cons]
    refine ih _ ?_
    unfold mergeStep
    split
    · exact h
    · split
      · exact h
      · next hlen _ =>
        simp only [List.length_append, List.length_cons, List.length_nil]
        omega

theorem mergeFold_split (l : List CtxItem) :
    ∀ st : List String × List CtxItem, ∃ extra : List CtxItem,
      (l.foldl mergeStep st).2 = st.2 ++ extra ∧ extra.Sublist l := by
  induction l with
  | nil => intro st; exact ⟨[], by simp, List.nil_sublist []⟩
  | cons x rest ih =>
    intro st
    rw [List.foldl_cons]
    obtain ⟨extra, he, hs⟩ := ih (mergeStep st x)
    rcases mergeStep_cases st x with h | h
    · exact ⟨extra, by rw [he, h], hs.trans (List.sublist_cons_self x rest)⟩
    · refine ⟨x :: extra, ?_, hs.cons₂ x⟩
      rw [he, h]
      simp

theorem mergeStep_inv (st : List String × List CtxItem) (x : CtxItem)
    (h1 : st.1 = st.2.map ctxKey) (h2 : st.1.Nodup) :
    (mergeStep st x).1 = (mergeStep st x).2.map ctxKey ∧
      (mergeStep st x).1.Nodup := by
  unfold mergeStep
  split
  · exact ⟨h1, h2⟩
  · split
    · exact ⟨h1, h2⟩
    · next hk =>
      refine ⟨by simp [h1], ?_⟩
      rw [List.nodup_append]
      refine ⟨h2, List.nodup_singleton _, ?_⟩
      intro a ha
      simp only [List.mem_singleton]
      intro hax
      exact hk (hax ▸ ha)

theorem mergeFold_nodup (l : List CtxItem) :
    ∀ st : List String × List CtxItem,
      st.1 = st.2.map ctxKey → st.1.Nodup →
      ((l.foldl mergeStep st).1 = (l.foldl mergeStep st).2.map ctxKey ∧
        (l.foldl mergeStep st).1.Nodup) := by
  induction l with
  | nil => intro st h1 h2; exact ⟨h1, h2⟩
  | cons x rest ih =>
    intro st h1 h2
    rw [List.foldl_cons]
    obtain ⟨h1', h2'⟩ := mergeStep_inv st x h1 h2
    exact ih _ h1' h2'

theorem chatBm25Items_isKw (emailsTable : List EmailRow) (retrievalQuery : String)
    (qt : List String) (rs : List (RagChunk × ℝ)) :
    ∀ x ∈ chatBm25Items emailsTable retrievalQuery qt rs, x.isVec = false := by
  intro x hx
  unfold chatBm25Items at hx
  split at hx
  · obtain ⟨e, _, hxe⟩ := List.mem_map.mp hx
    rw [← hxe]
    rfl
  · cases hx

theorem chatBm25Items_consulted (emailsTable : List EmailRow)
    (retrievalQuery : String) (qt : List String) (rs : List (RagChunk × ℝ))
    (hne : chatBm25Items emailsTable retrievalQuery qt rs ≠ []) :
    chatNeedBm25 qt rs = true := by
  unfold chatBm25Items at hne
  by_cases h : chatNeedBm25 qt rs = true
  · exact h
  · rw [if_neg h] at hne
    exact absurd rfl hne

/-- C4: the email RAG context of POST /api/ai/chat holds at most 3 items with
pairwise-distinct dedup keys; the vector results are exactly the retrieved
chunks whose similarity reaches 0.50 and that match a query token or reach
similarity 0.75; all vector items precede all keyword items; the BM25
keyword search (6 candidates, via `searchEmailsBm25`) is consulted exactly
when no vector result passed, and any keyword item in the context implies
the vector result list was empty. -/
theorem C4_chat_context_assembly (emailsTable : List EmailRow)
    (chunks : List RagChunk) (queryEmbedding : Option (List ℝ))
    (retrievalQuery : String) :
    (chatContext emailsTable chunks queryEmbedding retrievalQuery).length ≤ 3 ∧
    chatVectorResults (chatQueryTokens retrievalQuery)
        (chatRelevantChunks chunks queryEmbedding) =
      ((chatRelevantChunks chunks queryEmbedding).filter
        (vecPass (chatQueryTokens retrievalQuery))).map
          (fun r => (r.1.content, r.2)) ∧
    chatNeedBm25 (chatQueryTokens retrievalQuery)
        (chatRelevantChunks chunks queryEmbedding) =
      (chatVectorResults (chatQueryTokens retrievalQuery)
        (chatRelevantChunks chunks queryEmbedding)).isEmpty ∧
    (∃ vs ks : List CtxItem,
      chatContext emailsTable chunks queryEmbedding retrievalQuery = vs ++ ks ∧
      (∀ x ∈ vs, x.isVec = true) ∧ (∀ x ∈ ks, x.isVec = false)) ∧
    ((chatContext emailsTable chunks queryEmbedding retrievalQuery).map ctxKey).Nodup ∧
    (∀ x ∈ chatContext emailsTable chunks queryEmbedding retrievalQuery,
      x.isVec = false →
      x ∈ chatBm25Items emailsTable retrievalQuery (chatQueryTokens retrievalQuery)
          (chatRelevantChunks chunks queryEmbedding) ∧
      chatVectorResults (chatQueryTokens retrievalQuery)
        (chatRelevantChunks chunks queryEmbedding) = []) := by
  classical
  set qt := chatQueryTokens retrievalQuery with hqt
  set rs := chatRelevantChunks chunks queryEmbedding with hrs
  set vecItems := (chatVectorResults qt rs).map (fun v => CtxItem.vec v.1 v.2)
    with hvi
  set kwItems := chatBm25Items emailsTable retrievalQuery qt rs with hki
  have hctx : chatContext emailsTable chunks queryEmbedding retrievalQuery =
      ((vecItems ++ kwItems).foldl mergeStep ([], [])).2 := rfl
  obtain ⟨eV, heV, hsV⟩ := mergeFold_split vecItems ([], [])
  obtain ⟨eK, heK, hsK⟩ := mergeFold_split kwItems (vecItems.foldl mergeStep ([], []))
  have hsplit : chatContext emailsTable chunks queryEmbedding retrievalQuery =
      eV ++ eK := by
    rw [hctx, List.foldl_append, heK, heV]
    simp
  refine ⟨?_, chatVectorResults_filter qt rs, chatNeedBm25_iff_empty qt rs,
    ?_, ?_, ?_⟩
  · rw [hctx]
    exact mergeFold_len_le _ _ (by simp)
  · refine ⟨eV, eK, hsplit, ?_, ?_⟩
    · intro x hx
      have hmem := hsV.subset hx
      obtain ⟨v, _, hv⟩ := List.mem_map.mp hmem
      rw [← hv]
      rfl
    · intro x hx
      exact chatBm25Items_isKw emailsTable retrievalQuery qt rs x (hsK.subset hx)
  · rw [hctx]
    exact ((mergeFold_nodup (vecItems ++ kwItems) ([], []) rfl
      List.nodup_nil).1 ▸ (mergeFold_nodup (vecItems ++ kwItems) ([], []) rfl
      List.nodup_nil).2)
  · intro x hx hkw
    rw [hsplit] at hx
    rcases List.mem_append.mp hx with h | h
    · have hmem := hsV.subset h
      obtain ⟨v, _, hv⟩ := List.mem_map.mp hmem
      rw [← hv] at hkw
      cases hkw
    · have hxk : x ∈ kwItems := hsK.subset h
      refine ⟨hxk, ?_⟩
      have hne : kwItems ≠ [] := fun hnil => by
        rw [hnil] at hxk
        cases hxk
      have hcons := chatBm25Items_consulted emailsTable retrievalQuery qt rs hne
      have := chatNeedBm25_iff_empty qt rs
      rw [hcons] at this
      exact List.isEmpty_iff.mp this.symm

/-- Witness for C4: the theorem applied at a concrete (empty-retrieval)
request: the context stays within 3 items and the BM25 fallback condition
coincides with the vector results being empty. -/
theorem C4_chat_context_assembly_witness :
    (chatContext [] [] none "").length ≤ 3 ∧
    chatNeedBm25 (chatQueryTokens "") (chatRelevantChunks [] none) =
      (chatVectorResults (chatQueryTokens "") (chatRelevantChunks [] none)).isEmpty :=
  ⟨(C4_chat_context_assembly [] [] none "").1,
   (C4_chat_context_assembly [] [] none "").2.2.1⟩

theorem find_key_of_nodup {α β : Type} [DecidableEq α] (l : List (α × β))
    (hn : (l.map Prod.fst).Nodup) (s : α × β) (hs : s ∈ l) :
    l.find? (fun p => p.1 = s.1) = some s := by
  induction l with
  | nil => cases hs
  | cons a rest ih =>
    rw [List.map_cons, List.nodup_cons] at hn
    rcases List.mem_cons.mp hs with rfl | hmem
    · rw [List.find?_cons]
      simp
    · have hne : a.1 ≠ s.1 := by
        intro h
        exact hn.1 (h ▸ List.mem_map.mpr ⟨s, hmem, rfl⟩)
      rw [List.find?_cons]
      have hd : (decide (a.1 = s.1)) = false := decide_eq_false hne
      rw [hd]
      exact ih hn.2 hmem

theorem bm25Rank_emailDocs (cands : List EmailRow) (q : List String) :
    bm25Rank (cands.map (fun c => (c.id, bm25DocText c))) q =
      cands.map (fun e => (e.id, bm25EmailScore cands q e)) := by
  unfold bm25Rank bm25EmailScore
  rw [List.map_map]
  rfl

theorem bm25_pipeline_spec (cands : List EmailRow) (tokens : List String)
    (k : Nat) (hnd : (cands.map (fun e => e.id)).Nodup)
    (scored : List (Nat × ℝ))
    (hscored : scored = (descSort Prod.snd
      ((cands.map (fun e => (e.id, bm25EmailScore cands tokens e))).filter
        (fun s => decide (0 < s.2)))).take k)
    (final : List BmResult)
    (hfinal : final = descSort (fun r : BmResult => r.score)
      ((cands.filter (fun e => decide (e.id ∈ scored.map Prod.fst))).map (fun e =>
        ({ mailId := toString e.id, subject := e.subject
         , sender := if e.sender = "" then none else some e.sender
         , date := if e.date = "" then none else some e.date
         , body := e.body
         , score := ((scored.find? (fun s => s.1 = e.id)).map Prod.snd).getD 0 }
          : BmResult)))) :
    final.length =
      min k (cands.countP (fun e => decide (0 < bm25EmailScore cands tokens e))) ∧
    ∀ r ∈ final, 0 < r.score ∧ ∃ e ∈ cands,
      r.mailId = toString e.id ∧ r.subject = e.subject ∧ r.body = e.body ∧
      r.score = bm25EmailScore cands tokens e := by
  classical
  set scoresAll := cands.map (fun e => (e.id, bm25EmailScore cands tokens e))
    with hsa
  have hids : scoresAll.map Prod.fst = cands.map (fun e => e.id) := by
    rw [hsa, List.map_map]
    rfl
  set pos := scoresAll.filter (fun s => decide (0 < s.2)) with hpos
  have hnodup_pos : (pos.map Prod.fst).Nodup :=
    ((List.filter_sublist scoresAll).map Prod.fst).nodup (hids ▸ hnd)
  have hperm : (descSort (Prod.snd : Nat × ℝ → ℝ) pos).Perm pos :=
    descSort_perm _ _
  have hnodup_sorted : ((descSort Prod.snd pos).map Prod.fst).Nodup :=
    ((hperm.map Prod.fst).symm).nodup hnodup_pos
  have hsc_sub : scored.Sublist (descSort Prod.snd pos) := by
    rw [hscored]
    exact List.take_sublist _ _
  have hnodup_scored : (scored.map Prod.fst).Nodup :=
    (hsc_sub.map Prod.fst).nodup hnodup_sorted
  have hscored_mem : ∀ s ∈ scored, s ∈ pos := fun s hs =>
    (mem_descSort _ _ _).mp (hsc_sub.subset hs)
  have hscored_all : ∀ s ∈ scored, s ∈ scoresAll := fun s hs =>
    (List.mem_filter.mp (hscored_mem s hs)).1
  have hscored_pos : ∀ s ∈ scored, (0 : ℝ) < s.2 := fun s hs =>
    of_decide_eq_true (List.mem_filter.mp (hscored_mem s hs)).2
  have hidsub : ∀ i ∈ scored.map Prod.fst, i ∈ cands.map (fun e => e.id) := by
    intro i hi
    obtain ⟨s, hs, hsi⟩ := List.mem_map.mp hi
    rw [← hsi, ← hids]
    exact List.mem_map.mpr ⟨s, hscored_all s hs, rfl⟩
  have hg : ∀ s ∈ scored,
      ((scored.find? (fun p => p.1 = s.1)).map Prod.snd).getD 0 = s.2 := by
    intro s hs
    rw [find_key_of_nodup scored hnodup_scored s hs]
    rfl
  have hscore_eq : ∀ e ∈ cands, ∀ s ∈ scored, s.1 = e.id →
      s.2 = bm25EmailScore cands tokens e := by
    intro e he s hs hse
    obtain ⟨c, hc, hcs⟩ := List.mem_map.mp (hscored_all s hs)
    have hcid : c.id = e.id := by
      have h1 : (c.id, bm25EmailScore cands tokens c).1 = s.1 := by rw [hcs]
      simpa [hse] using h1
    have hce : c = e := List.inj_on_of_nodup_map hnd hc he hcid
    have h2 : (c.id, bm25EmailScore cands tokens c).2 = s.2 := by rw [hcs]
    rw [← h2, hce]
  set picked := cands.filter (fun e => decide (e.id ∈ scored.map Prod.fst))
    with hpk
  have hpicked_ids : picked.map (fun e => e.id) =
      (cands.map (fun e => e.id)).filter
        (fun i => decide (i ∈ scored.map Prod.fst)) := by
    rw [hpk, List.map_filter]
    rfl
  have hfilter_nodup : ((cands.map (fun e => e.id)).filter
      (fun i => decide (i ∈ scored.map Prod.fst))).Nodup :=
    List.Nodup.filter _ hnd
  have hperm_ids : ((cands.map (fun e => e.id)).filter
      (fun i => decide (i ∈ scored.map Prod.fst))).Perm
        (scored.map Prod.fst) := by
    refine (List.perm_ext_iff_of_nodup hfilter_nodup hnodup_scored).mpr ?_
    intro i
    constructor
    · intro hi
      exact of_decide_eq_true (List.mem_filter.mp hi).2
    · intro hi
      exact List.mem_filter.mpr ⟨hidsub i hi, decide_eq_true hi⟩
  have hlen : final.length = min k pos.length := by
    rw [hfinal, length_descSort, List.length_map]
    have h1 : picked.length = (picked.map (fun e => e.id)).length := by
      rw [List.length_map]
    rw [h1, hpicked_ids, hperm_ids.length_eq, List.length_map, hscored,
      List.length_take, hperm.length_eq]
  refine ⟨?_, ?_⟩
  · rw [hlen, hpos, ← List.countP_eq_length_filter, hsa, List.countP_map]
    rfl
  · intro r hr
    rw [hfinal] at hr
    have hr2 : r ∈ (cands.filter
        (fun e => decide (e.id ∈ scored.map Prod.fst))).map (fun e =>
        ({ mailId := toString e.id, subject := e.subject
         , sender := if e.sender = "" then none else some e.sender
         , date := if e.date = "" then none else some e.date
         , body := e.body
         , score := ((scored.find? (fun s => s.1 = e.id)).map Prod.snd).getD 0 }
          : BmResult)) := (mem_descSort _ _ _).mp hr
    obtain ⟨e, hemem, her⟩ := List.mem_map.mp hr2
    have he : e ∈ cands := (List.mem_filter.mp hemem).1
    have hin : e.id ∈ scored.map Prod.fst :=
      of_decide_eq_true (List.mem_filter.mp hemem).2
    obtain ⟨s, hs, hsi⟩ := List.mem_map.mp hin
    have hrscore : r.score =
        ((scored.find? (fun p => p.1 = e.id)).map Prod.snd).getD 0 := by
      rw [← her]
    have hfind : ((scored.find? (fun p => p.1 = e.id)).map Prod.snd).getD 0 =
        s.2 := by
      rw [← hsi]
      exact hg s hs
    have hse : s.2 = bm25EmailScore cands tokens e := hscore_eq e he s hs hsi
    refine ⟨?_, e, he, ?_, ?_, ?_, ?_⟩
    · rw [hrscore, hfind]
      exact hscored_pos s hs
    · rw [← her]
    · rw [← her]
    · rw [← her]
    · rw [hrscore, hfind, hse]

/-- C1: for a query with at least one token, `searchEmailsBm25` scores each
of at most 3000 candidate emails over the lower-cased `subject sender body`
by the BM25 formula (`k1 = 1.2`, `b = 0.75`,
`idf = ln (1 + (N - n + 0.5)/(n + 0.5))` — spelled out in the first
conjunct), keeps only strictly positive scores, and returns at most
`max 1 topK` results in descending score order (exactly
`min (max 1 topK) #positives` of them, each carrying its candidate's BM25
score); a whitespace-only query returns the empty list.  The candidate ids
are assumed distinct, as the primary key guarantees. -/
theorem C1_searchEmailsBm25_spec (emailsTable : List EmailRow) (query : String)
    (topK : Nat) :
    (∀ (docTokens : List (List String)) (N : Nat) (avgdl : ℝ)
        (qts tokens : List String),
      bm25DocScore docTokens N avgdl qts tokens =
        (qts.map (fun q =>
          if tf tokens (strLower q) = 0 then 0
          else
            Real.log (1 + ((N : ℝ) - (dfCount docTokens (strLower q) : ℝ) + 0.5) /
                ((dfCount docTokens (strLower q) : ℝ) + 0.5)) *
              ((tf tokens (strLower q) : ℝ) * (1.2 + 1)) /
              ((tf tokens (strLower q) : ℝ) + 1.2 * (1 - 0.75 + 0.75 *
                ((tokens.length : ℝ) / max 1e-6 avgdl))))).sum) ∧
    (tokenize query = [] →
      DatabaseStorage.searchEmailsBm25 emailsTable query topK = []) ∧
    (tokenize query ≠ [] →
      ((emailsTable.take 3000).map (fun e => e.id)).Nodup →
      (DatabaseStorage.searchEmailsBm25 emailsTable query topK).length ≤
          max 1 topK ∧
      List.Pairwise (fun a b : BmResult => b.score ≤ a.score)
        (DatabaseStorage.searchEmailsBm25 emailsTable query topK) ∧
      (DatabaseStorage.searchEmailsBm25 emailsTable query topK).length =
        min (max 1 topK) ((emailsTable.take 3000).countP
          (fun e => decide (0 < bm25EmailScore (emailsTable.take 3000)
            (tokenize query) e))) ∧
      (∀ r ∈ DatabaseStorage.searchEmailsBm25 emailsTable query topK,
        0 < r.score ∧ ∃ e ∈ emailsTable.take 3000,
          r.mailId = toString e.id ∧ r.subject = e.subject ∧ r.body = e.body ∧
          r.score = bm25EmailScore (emailsTable.take 3000) (tokenize query) e)) := by
  classical
  refine ⟨fun _ _ _ _ _ => rfl, ?_, ?_⟩
  · intro h
    unfold DatabaseStorage.searchEmailsBm25
    dsimp only
    rw [if_pos h]
  · intro hq hnd
    have hfin : DatabaseStorage.searchEmailsBm25 emailsTable query topK =
        descSort (fun r : BmResult => r.score)
          (((emailsTable.take 3000).filter (fun e => decide (e.id ∈
            ((descSort Prod.snd (((emailsTable.take 3000).map (fun e =>
              (e.id, bm25EmailScore (emailsTable.take 3000) (tokenize query) e))).filter
                (fun s => decide (0 < s.2)))).take (max 1 topK)).map Prod.fst))).map
            (fun e =>
              ({ mailId := toString e.id, subject := e.subject
               , sender := if e.sender = "" then none else some e.sender
               , date := if e.date = "" then none else some e.date
               , body := e.body
               , score := ((((descSort Prod.snd (((emailsTable.take 3000).map (fun e =>
                   (e.id, bm25EmailScore (emailsTable.take 3000) (tokenize query) e))).filter
                     (fun s => decide (0 < s.2)))).take (max 1 topK)).find?
                       (fun s => s.1 = e.id)).map Prod.snd).getD 0 } : BmResult))) := by
      unfold DatabaseStorage.searchEmailsBm25
      dsimp only
      rw [if_neg hq]
      rw [bm25Rank_emailDocs]
    have hboth := bm25_pipeline_spec (emailsTable.take 3000)
      (tokenize query) (max 1 topK) hnd
      ((descSort Prod.snd (((emailsTable.take 3000).map (fun e =>
        (e.id, bm25EmailScore (emailsTable.take 3000) (tokenize query) e))).filter
          (fun s => decide (0 < s.2)))).take (max 1 topK)) rfl
      (descSort (fun r : BmResult => r.score)
        (((emailsTable.take 3000).filter (fun e => decide (e.id ∈
          ((descSort Prod.snd (((emailsTable.take 3000).map (fun e =>
            (e.id, bm25EmailScore (emailsTable.take 3000) (tokenize query) e))).filter
              (fun s => decide (0 < s.2)))).take (max 1 topK)).map Prod.fst))).map
          (fun e =>
            ({ mailId := toString e.id, subject := e.subject
             , sender := if e.sender = "" then none else some e.sender
             , date := if e.date = "" then none else some e.date
             , body := e.body
             , score := ((((descSort Prod.snd (((emailsTable.take 3000).map (fun e =>
                 (e.id, bm25EmailScore (emailsTable.take 3000) (tokenize query) e))).filter
                   (fun s => decide (0 < s.2)))).take (max 1 topK)).find?
                     (fun s => s.1 = e.id)).map Prod.snd).getD 0 } : BmResult)))) rfl
    have hlen := hboth.1
    have hmem := hboth.2
    refine ⟨?_, ?_, ?_, ?_⟩
    · rw [hfin, hlen]
      exact min_le_left _ _
    · rw [hfin]
      exact pairwise_descSort _ _
    · rw [hfin]
      exact hlen
    · rw [hfin]
      exact hmem

/-- Witness for C1: a whitespace-only query returns nothing, and a concrete
one-row table with a one-token query obeys the `max 1 topK` bound. -/
theorem C1_searchEmailsBm25_spec_witness :
    DatabaseStorage.searchEmailsBm25 [⟨1, "a", "b", "c", "d"⟩] "   " 3 = [] ∧
    (DatabaseStorage.searchEmailsBm25 [⟨1, "a", "b", "c", "d"⟩] "hello" 3).length ≤
      max 1 3 := by
  constructor
  · exact (C1_searchEmailsBm25_spec [⟨1, "a", "b", "c", "d"⟩] "   " 3).2.1
      (by decide)
  · exact ((C1_searchEmailsBm25_spec [⟨1, "a", "b", "c", "d"⟩] "hello" 3).2.2
      (by decide) (by decide)).1
